import Mathlib

/-!
Shallow embedding of the `vm31-relayer` service (Bitsage-Network/obelysk),
covering the shared store (`store.rs`), the batch queue (`batch_queue.rs`),
the ingress validation and submit pipeline (`routes.rs`), and the prover
orchestrator (`prover.rs`).

Machine integers are modelled as `Nat` with explicit wrap-around (`% 2^64`)
where the source relies on wrapping arithmetic.  The concurrent sharded maps
(`DashMap`) are modelled as association lists operated on atomically, which
matches the per-key entry-API discipline the source uses.  Wall-clock time is
an explicit `Nat` parameter (epoch seconds for the store, microseconds for
the ingress timing pad).  External collaborators (the ZK prover, the chain
client, the on-chain relayer flow, the X25519/AES-GCM primitives) are
parameters of the functions that invoke them, exactly at the call boundary
the source uses.
-/

namespace Obelysk

/-! ## Association-list maps (model of the DashMap namespaces) -/

/-- Lookup in an association list keyed by strings. -/
def lookupA {β : Type} (k : String) : List (String × β) → Option β
  | [] => none
  | (k', v) :: rest => if k' = k then some v else lookupA k rest

/-- Insert-or-replace in an association list (model of `DashMap::insert` /
the write-through of an occupied entry). -/
def setAssoc {β : Type} (k : String) (v : β) : List (String × β) → List (String × β)
  | [] => [(k, v)]
  | (k', v') :: rest => if k' = k then (k, v) :: rest else (k', v') :: setAssoc k v rest

theorem lookupA_setAssoc_self {β : Type} (k : String) (v : β) (m : List (String × β)) :
    lookupA k (setAssoc k v m) = some v := by
  induction m with
  | nil => simp [lookupA, setAssoc]
  | cons hd tl ih =>
    obtain ⟨k', v'⟩ := hd
    by_cases h : k' = k
    · simp [lookupA, setAssoc, h]
    · simp [lookupA, setAssoc, h, ih]

theorem lookupA_setAssoc_ne {β : Type} (k k' : String) (v : β) (m : List (String × β))
    (h : k ≠ k') : lookupA k' (setAssoc k v m) = lookupA k' m := by
  induction m with
  | nil => simp [lookupA, setAssoc, h]
  | cons hd tl ih =>
    obtain ⟨k₀, v₀⟩ := hd
    by_cases h₀ : k₀ = k
    · subst h₀
      simp [lookupA, setAssoc, h]
    · simp [lookupA, setAssoc, h₀, ih]

/-! ## Error taxonomy (`error.rs`) -/

/-- Embedding of `AppError` from `error.rs`. -/
inductive AppError
  | BadRequest (msg : String)
  | Unauthorized
  | RateLimited
  | BatchFull
  | ProverFailure (msg : String)
  | RelayerFailure (msg : String)
  | BridgeFailure (msg : String)
  | Internal (msg : String)
deriving DecidableEq, Repr

/-- HTTP status code mapping of `AppError::status_code`. -/
def AppError.statusCode : AppError → Nat
  | .BadRequest _ => 400
  | .Unauthorized => 401
  | .RateLimited => 429
  | .BatchFull => 503
  | .ProverFailure _ => 500
  | .RelayerFailure _ => 500
  | .BridgeFailure _ => 500
  | .Internal _ => 500

/-! ## Store types (`store.rs`) -/

/-- Embedding of `BatchStatus`. -/
inductive BatchStatus
  | Pending
  | Proving
  | Submitting
  | Finalized
  | Failed
deriving DecidableEq, Repr

/-- Embedding of `BatchRecord`. -/
structure BatchRecord where
  id : String
  status : BatchStatus
  tx_count : Nat
  proof_hash : Option String
  batch_id_onchain : Option String
  tx_hash : Option String
  created_at : Nat
  error : Option String
deriving DecidableEq, Repr

/-- Embedding of `BatchRecord::new`: a fresh record in `Pending`. -/
def BatchRecord.new (id : String) (tx_count : Nat) (now : Nat) : BatchRecord :=
  { id := id, status := BatchStatus.Pending, tx_count := tx_count,
    proof_hash := none, batch_id_onchain := none, tx_hash := none,
    created_at := now, error := none }

/-- Embedding of `MerklePathRecord`. -/
structure MerklePathRecord where
  siblings : List (List Nat)
  index : Nat
deriving DecidableEq, Repr

/-- Embedding of `NoteRecord`. -/
structure NoteRecord where
  commitment : String
  merkle_path : MerklePathRecord
  merkle_root : List Nat
  batch_id : String
  created_at : Nat
  commitment_digest : Option (List Nat)
  note_index_in_batch : Nat
deriving DecidableEq, Repr

/-- Embedding of `StatusUpdate` (extra fields written with a status change). -/
structure StatusUpdate where
  proof_hash : Option String := none
  batch_id_onchain : Option String := none
  tx_hash : Option String := none
  error : Option String := none
deriving DecidableEq, Repr

/-- Embedding of `StoreError`. -/
inductive StoreError
  | NotFound (id : String)
  | Backend (msg : String)
deriving DecidableEq, Repr

/-- Rendering of `StoreError`'s `Display` impl. -/
def StoreError.render : StoreError → String
  | .NotFound id => ("batch not found: ") ++ id
  | .Backend msg => ("store backend error: ") ++ msg

/-- Idempotency entries expire after one hour (`IDEMPOTENCY_TTL_SECS`). -/
def IDEMPOTENCY_TTL_SECS : Nat := 3600

/-- In-memory store state: the four DashMap namespaces of `InMemoryStore`. -/
structure StoreState where
  batches : List (String × BatchRecord)
  idempotency : List (String × (String × Nat))
  rate_limits : List (String × (Nat × Nat))
  notes : List (String × NoteRecord)
deriving DecidableEq, Repr

/-- The empty store (`InMemoryStore::new`). -/
def StoreState.empty : StoreState :=
  { batches := [], idempotency := [], rate_limits := [], notes := [] }

/-- Embedding of `InMemoryStore::save_batch` (infallible insert). -/
def save_batch (m : List (String × BatchRecord)) (id : String) (b : BatchRecord) :
    List (String × BatchRecord) :=
  setAssoc id b m

/-- Application of a `StatusUpdate` onto a record, in the field order of
`InMemoryStore::update_status`. -/
def applyUpdate (r : BatchRecord) (status : BatchStatus) (extra : StatusUpdate) : BatchRecord :=
  let r := { r with status := status }
  let r := match extra.proof_hash with
    | some v => { r with proof_hash := some v }
    | none => r
  let r := match extra.batch_id_onchain with
    | some v => { r with batch_id_onchain := some v }
    | none => r
  let r := match extra.tx_hash with
    | some v => { r with tx_hash := some v }
    | none => r
  match extra.error with
    | some v => { r with error := some v }
    | none => r

/-- Embedding of `InMemoryStore::update_status`: fails with `NotFound` when
the record is absent, otherwise rewrites it in place. -/
def update_status (m : List (String × BatchRecord)) (id : String) (status : BatchStatus)
    (extra : StatusUpdate) : Except StoreError (List (String × BatchRecord)) :=
  match lookupA id m with
  | none => Except.error (StoreError.NotFound id)
  | some r => Except.ok (setAssoc id (applyUpdate r status extra) m)

/-- Embedding of `InMemoryStore::check_and_set` (the idempotency token
check-and-set, done atomically through the entry API).  The occasional
over-capacity eviction in the source only drops already-expired entries and
does not change the operation's result, so it is not modelled. -/
def check_and_set (m : List (String × (String × Nat))) (key result : String) (now : Nat) :
    Option String × List (String × (String × Nat)) :=
  match lookupA key m with
  | some (cached, created) =>
    if now - created < IDEMPOTENCY_TTL_SECS then
      (some cached, m)
    else
      (none, setAssoc key (result, now) m)
  | none => (none, setAssoc key (result, now) m)

/-- Embedding of `InMemoryStore::check_rate`: window-based counter with an
atomic or-insert entry.  Time never runs backwards in the model, so the
`u64` subtraction `now - window_start` is the plain `Nat` difference. -/
def check_rate (m : List (String × (Nat × Nat))) (key : String) (limit window_secs now : Nat) :
    Bool × List (String × (Nat × Nat)) :=
  let e := (lookupA key m).getD (0, now)
  let e := if window_secs ≤ now - e.2 then (0, now) else e
  if limit ≤ e.1 then
    (false, setAssoc key e m)
  else
    (true, setAssoc key (e.1 + 1, e.2) m)

/-- A sequence of `check_rate` calls against the same key, threading the
store; returns the list of allow/deny decisions and the final store. -/
def rateCalls (key : String) (limit window_secs : Nat) :
    List (String × (Nat × Nat)) → List Nat → List Bool × List (String × (Nat × Nat))
  | m, [] => ([], m)
  | m, t :: ts =>
    let r := check_rate m key limit window_secs t
    let rest := rateCalls key limit window_secs r.2 ts
    (r.1 :: rest.1, rest.2)

/-- Embedding of `InMemoryStore::save_note` (infallible insert keyed by the
commitment string). -/
def save_note (m : List (String × NoteRecord)) (commitment : String) (r : NoteRecord) :
    List (String × NoteRecord) :=
  setAssoc commitment r m

/-! ## Input validation (`routes.rs`) -/

/-- M31 field modulus constant from `routes.rs`: `2^31 - 1`. -/
def M31_MODULUS : Nat := 0x7FFFFFFF

/-- Maximum Merkle tree depth. -/
def MAX_MERKLE_DEPTH : Nat := 32

/-- Maximum note amount: `(2^31 - 1) + (2^31 - 1) * 2^31`. -/
def MAX_NOTE_AMOUNT : Nat := ((2 ^ 31) - 1) + ((2 ^ 31) - 1) * (2 ^ 31)

/-- Maximum pending transactions before rejecting new submissions. -/
def MAX_PENDING_TXS : Nat := 1024

/-- Embedding of `validate_m31`: the source rejects only values strictly
above `M31_MODULUS`; an accepted value is passed to
`M31::from_u32_unchecked`, modelled as the identity on the raw value. -/
def validate_m31 (val : Nat) (field_name : String) : Except AppError Nat :=
  if M31_MODULUS < val then
    Except.error (AppError.BadRequest
      (field_name ++ (": value ") ++ toString val ++ (" exceeds M31 field modulus")))
  else
    Except.ok val

/-- Element-wise `validate_m31` over a fixed-size array, modelled on lists;
this is the common body of `validate_m31_4` and `validate_m31_8`, which
validate the entries in index order and stop at the first failure. -/
def validate_m31_seq (arr : List Nat) (field_name : String) : Except AppError (List Nat) :=
  match arr with
  | [] => Except.ok []
  | v :: rest =>
    match validate_m31 v field_name with
    | Except.error e => Except.error e
    | Except.ok v' =>
      match validate_m31_seq rest field_name with
      | Except.error e => Except.error e
      | Except.ok rest' => Except.ok (v' :: rest')

/-- Embedding of `validate_amount`. -/
def validate_amount (amount : Nat) : Except AppError Unit :=
  if amount = 0 then
    Except.error (AppError.BadRequest ("amount must be > 0"))
  else if MAX_NOTE_AMOUNT < amount then
    Except.error (AppError.BadRequest ("amount exceeds maximum"))
  else
    Except.ok ()

/-- BTC denomination whitelist (base unit: satoshi). -/
def BTC_DENOMINATIONS : List Nat :=
  [50000, 100000, 500000, 1000000, 5000000, 10000000]

/-- ETH denomination whitelist (base unit: wei). -/
def ETH_DENOMINATIONS : List Nat :=
  [1000000000000000, 5000000000000000, 10000000000000000,
   50000000000000000, 100000000000000000, 500000000000000000]

/-- STRK denomination whitelist, with the literals exactly as written in the
source (the third entry is `10^19`, which does fit in a `u64` despite the
source comment claiming otherwise). -/
def STRK_DENOMINATIONS : List Nat :=
  [1000000000000000000, 5000000000000000000, 10000000000000000000,
   50000000000000000, 100000000000000000, 500000000000000000]

/-- USDC denomination whitelist (base unit: micro-USDC). -/
def USDC_DENOMINATIONS : List Nat :=
  [1000000, 5000000, 10000000, 50000000, 100000000, 500000000]

/-- SAGE denomination whitelist. -/
def SAGE_DENOMINATIONS : List Nat :=
  [100000000000000000, 500000000000000000, 1000000000000000000,
   5000000000000000000, 10000000000000000, 50000000000000000]

/-- Embedding of `denominations_for_asset`. -/
def denominations_for_asset (asset_id : Nat) : Option (List Nat) :=
  match asset_id with
  | 0 => some BTC_DENOMINATIONS
  | 1 => some SAGE_DENOMINATIONS
  | 2 => some ETH_DENOMINATIONS
  | 3 => some STRK_DENOMINATIONS
  | 4 => some USDC_DENOMINATIONS
  | _ => none

/-- Embedding of `validate_denomination` (and its alias
`validate_btc_denomination`). -/
def validate_denomination (amount asset_id : Nat) : Except AppError Unit :=
  match denominations_for_asset asset_id with
  | some denoms =>
    if amount ∈ denoms then
      Except.ok ()
    else
      Except.error (AppError.BadRequest
        (("Deposits must use standard denominations for asset ") ++ toString asset_id ++
          (". Got ") ++ toString amount))
  | none => Except.ok ()

/-! ## Transaction data model (`tx_builder::PendingTx` and the JSON wire
types of `routes.rs`).  Fixed-size `u32` arrays are modelled as `List Nat`;
the validators construct them element by element exactly as the source
does. -/

/-- Embedding of `Note` (crypto commitment note). -/
structure NoteV where
  owner_pubkey : List Nat
  asset_id : Nat
  amount_lo : Nat
  amount_hi : Nat
  blinding : List Nat
deriving DecidableEq, Repr

/-- Embedding of `MerklePath`. -/
structure MerklePathV where
  siblings : List (List Nat)
  index : Nat
deriving DecidableEq, Repr

/-- Embedding of `PendingTx` (the validated, queue-side transaction). -/
inductive PendingTx
  | Deposit (amount : Nat) (asset_id : Nat)
      (recipient_pubkey : List Nat) (recipient_viewing_key : List Nat)
  | Withdraw (amount : Nat) (asset_id : Nat) (note : NoteV) (spending_key : List Nat)
      (merkle_path : MerklePathV) (merkle_root : List Nat) (withdrawal_binding : List Nat)
  | Transfer (amount : Nat) (asset_id : Nat)
      (recipient_pubkey : List Nat) (recipient_viewing_key : List Nat)
      (sender_viewing_key : List Nat)
      (input_notes : (NoteV × List Nat × MerklePathV) × (NoteV × List Nat × MerklePathV))
      (merkle_root : List Nat)
deriving DecidableEq, Repr

/-- Embedding of `NoteJson`. -/
structure NoteJson where
  owner_pubkey : List Nat
  asset_id : Nat
  amount_lo : Nat
  amount_hi : Nat
  blinding : List Nat
deriving DecidableEq, Repr

/-- Embedding of `MerklePathJson`. -/
structure MerklePathJson where
  siblings : List (List Nat)
  index : Nat
deriving DecidableEq, Repr

/-- Embedding of `InputNoteJson`. -/
structure InputNoteJson where
  note : NoteJson
  spending_key : List Nat
  merkle_path : MerklePathJson
deriving DecidableEq, Repr

/-- Embedding of the plaintext `SubmitRequest` wire type. -/
inductive SubmitRequest
  | Deposit (amount : Nat) (asset_id : Nat)
      (recipient_pubkey : List Nat) (recipient_viewing_key : List Nat)
  | Withdraw (amount : Nat) (asset_id : Nat) (note : NoteJson) (spending_key : List Nat)
      (merkle_path : MerklePathJson) (merkle_root : List Nat)
      (withdrawal_binding : List Nat) (binding_salt : Option (List Nat))
  | Transfer (amount : Nat) (asset_id : Nat)
      (recipient_pubkey : List Nat) (recipient_viewing_key : List Nat)
      (sender_viewing_key : List Nat)
      (input_notes : InputNoteJson × InputNoteJson) (merkle_root : List Nat)
deriving DecidableEq, Repr

/-- Embedding of `validate_merkle_path`: depth bound then element-wise M31
validation of the siblings, with the per-index field name. -/
def validateSiblings (i : Nat) : List (List Nat) → Except AppError (List (List Nat))
  | [] => Except.ok []
  | s :: rest =>
    match validate_m31_seq s (("merkle_sibling[") ++ toString i ++ ("]")) with
    | Except.error e => Except.error e
    | Except.ok v =>
      match validateSiblings (i + 1) rest with
      | Except.error e => Except.error e
      | Except.ok vs => Except.ok (v :: vs)

/-- Embedding of `validate_merkle_path`. -/
def validate_merkle_path (p : MerklePathJson) : Except AppError MerklePathV :=
  if MAX_MERKLE_DEPTH < p.siblings.length then
    Except.error (AppError.BadRequest
      (("merkle path depth ") ++ toString p.siblings.length ++
        (" exceeds maximum ") ++ toString MAX_MERKLE_DEPTH))
  else
    match validateSiblings 0 p.siblings with
    | Except.error e => Except.error e
    | Except.ok sibs => Except.ok { siblings := sibs, index := p.index }

/-- Embedding of `validate_note`. -/
def validate_note (n : NoteJson) : Except AppError NoteV :=
  match validate_m31_seq n.owner_pubkey ("note.owner_pubkey") with
  | Except.error e => Except.error e
  | Except.ok opk =>
  match validate_m31 n.asset_id ("note.asset_id") with
  | Except.error e => Except.error e
  | Except.ok aid =>
  match validate_m31 n.amount_lo ("note.amount_lo") with
  | Except.error e => Except.error e
  | Except.ok lo =>
  match validate_m31 n.amount_hi ("note.amount_hi") with
  | Except.error e => Except.error e
  | Except.ok hi =>
  match validate_m31_seq n.blinding ("note.blinding") with
  | Except.error e => Except.error e
  | Except.ok bl =>
    Except.ok { owner_pubkey := opk, asset_id := aid, amount_lo := lo, amount_hi := hi,
                blinding := bl }

/-- Embedding of `SubmitRequest::validate_and_convert`, with the source's
validation order preserved in each arm. -/
def validate_and_convert (r : SubmitRequest) : Except AppError PendingTx :=
  match r with
  | .Deposit amount asset_id recipient_pubkey recipient_viewing_key =>
    match validate_amount amount with
    | Except.error e => Except.error e
    | Except.ok _ =>
    match validate_denomination amount asset_id with
    | Except.error e => Except.error e
    | Except.ok _ =>
    match validate_m31_seq recipient_pubkey ("recipient_pubkey") with
    | Except.error e => Except.error e
    | Except.ok rpk =>
    match validate_m31_seq recipient_viewing_key ("recipient_viewing_key") with
    | Except.error e => Except.error e
    | Except.ok rvk => Except.ok (PendingTx.Deposit amount asset_id rpk rvk)
  | .Withdraw amount asset_id note spending_key merkle_path merkle_root
      withdrawal_binding _ =>
    match validate_amount amount with
    | Except.error e => Except.error e
    | Except.ok _ =>
    match validate_note note with
    | Except.error e => Except.error e
    | Except.ok n =>
    match validate_m31_seq spending_key ("spending_key") with
    | Except.error e => Except.error e
    | Except.ok sk =>
    match validate_merkle_path merkle_path with
    | Except.error e => Except.error e
    | Except.ok mp =>
    match validate_m31_seq merkle_root ("merkle_root") with
    | Except.error e => Except.error e
    | Except.ok mr =>
    match validate_m31_seq withdrawal_binding ("withdrawal_binding") with
    | Except.error e => Except.error e
    | Except.ok wb => Except.ok (PendingTx.Withdraw amount asset_id n sk mp mr wb)
  | .Transfer amount asset_id recipient_pubkey recipient_viewing_key sender_viewing_key
      input_notes merkle_root =>
    match validate_amount amount with
    | Except.error e => Except.error e
    | Except.ok _ =>
    match validate_m31_seq recipient_pubkey ("recipient_pubkey") with
    | Except.error e => Except.error e
    | Except.ok rpk =>
    match validate_m31_seq recipient_viewing_key ("recipient_viewing_key") with
    | Except.error e => Except.error e
    | Except.ok rvk =>
    match validate_m31_seq sender_viewing_key ("sender_viewing_key") with
    | Except.error e => Except.error e
    | Except.ok svk =>
    match validate_note input_notes.1.note with
    | Except.error e => Except.error e
    | Except.ok n0 =>
    match validate_m31_seq input_notes.1.spending_key ("input[0].spending_key") with
    | Except.error e => Except.error e
    | Except.ok sk0 =>
    match validate_merkle_path input_notes.1.merkle_path with
    | Except.error e => Except.error e
    | Except.ok mp0 =>
    match validate_note input_notes.2.note with
    | Except.error e => Except.error e
    | Except.ok n1 =>
    match validate_m31_seq input_notes.2.spending_key ("input[1].spending_key") with
    | Except.error e => Except.error e
    | Except.ok sk1 =>
    match validate_merkle_path input_notes.2.merkle_path with
    | Except.error e => Except.error e
    | Except.ok mp1 =>
    match validate_m31_seq merkle_root ("merkle_root") with
    | Except.error e => Except.error e
    | Except.ok mr =>
      Except.ok (PendingTx.Transfer amount asset_id rpk rvk svk
        ((n0, sk0, mp0), (n1, sk1, mp1)) mr)

/-! ## Batch queue (`batch_queue.rs`)

The bounded mpsc channel is modelled by a `channelOpen` flag: a send on a
closed channel fails and the drained batch is dropped without being
emitted, exactly as in the source's `is_err()` branches.  UUIDs and the
thread-local PRNG are external inputs, passed in as the fresh id and a
random-word stream. -/

/-- Embedding of `ReadyBatch`. -/
structure ReadyBatch where
  batch_id : String
  transactions : List PendingTx
deriving DecidableEq, Repr

/-- State of a `BatchQueue`: the pending vector (transaction together with
its enqueue instant) plus the configuration fields. -/
structure QueueState where
  pending : List (PendingTx × Nat)
  max_size : Nat
  timeout : Nat
  min_batch_size : Nat
  max_wait : Nat
  channelOpen : Bool
deriving DecidableEq, Repr

/-- Swap of two positions of a list (the slice `swap` used by the
Fisher-Yates loop); out-of-range indices leave the list unchanged. -/
def swapL {α : Type} (xs : List α) (i j : Nat) : List α :=
  match xs[i]?, xs[j]? with
  | some a, some b => (xs.set i b).set j a
  | _, _ => xs

/-- Fisher-Yates loop of `rand`'s `SliceRandom::shuffle`: for `i` from
`len-1` down to `1`, swap position `i` with a position `rand i` drawn
uniformly from `0..=i` (modelled by reducing the supplied random word
modulo `i+1`). -/
def fyAux {α : Type} (rand : Nat → Nat) : Nat → List α → List α
  | 0, xs => xs
  | 1, xs => xs
  | n + 2, xs => fyAux rand (n + 1) (swapL xs (n + 1) (rand (n + 1) % (n + 2)))

/-- Embedding of `BatchQueue::shuffle_txs`: a full Fisher-Yates pass. -/
def fisherYates {α : Type} (rand : Nat → Nat) (xs : List α) : List α :=
  fyAux rand xs.length xs

theorem getElem_cons_set_perm {α : Type} :
    ∀ (t : List α) (m : Nat) (a : α) (h : m < t.length),
      List.Perm (t[m] :: t.set m a) (a :: t) := by
  intro t
  induction t with
  | nil => intro m a h; simp at h
  | cons b t' ih =>
    intro m a h
    match m with
    | 0 => exact List.Perm.swap a b t'
    | k + 1 =>
      have h' : k < t'.length := by simpa using h
      have p1 : List.Perm (t'[k] :: b :: t'.set k a) (b :: t'[k] :: t'.set k a) :=
        List.Perm.swap b (t'[k]) _
      have p2 : List.Perm (b :: t'[k] :: t'.set k a) (b :: a :: t') := (ih k a h').cons b
      have p3 : List.Perm (b :: a :: t') (a :: b :: t') := List.Perm.swap a b t'
      simpa using p1.trans (p2.trans p3)

theorem set_set_perm {α : Type} :
    ∀ (xs : List α) (i j : Nat) (hi : i < xs.length) (hj : j < xs.length),
      List.Perm ((xs.set i xs[j]).set j xs[i]) xs := by
  intro xs
  induction xs with
  | nil => intro i j hi _; simp at hi
  | cons a t ih =>
    intro i j hi hj
    match i, j with
    | 0, 0 => simp
    | 0, m + 1 =>
      have hm : m < t.length := by simpa using hj
      simpa using getElem_cons_set_perm t m a hm
    | k + 1, 0 =>
      have hk : k < t.length := by simpa using hi
      simpa using getElem_cons_set_perm t k a hk
    | k + 1, m + 1 =>
      have hk : k < t.length := by simpa using hi
      have hm : m < t.length := by simpa using hj
      simpa using ((ih k m hk hm).cons a)

theorem swapL_perm {α : Type} (xs : List α) (i j : Nat) : List.Perm (swapL xs i j) xs := by
  cases h₁ : xs[i]? with
  | none =>
    cases h₂ : xs[j]? with
    | none => simp [swapL, h₁, h₂]
    | some b => simp [swapL, h₁, h₂]
  | some a =>
    cases h₂ : xs[j]? with
    | none => simp [swapL, h₁, h₂]
    | some b =>
      obtain ⟨hi, rfl⟩ := List.getElem?_eq_some.mp h₁
      obtain ⟨hj, rfl⟩ := List.getElem?_eq_some.mp h₂
      simpa [swapL, h₁, h₂] using set_set_perm xs i j hi hj

theorem fyAux_perm {α : Type} (rand : Nat → Nat) :
    ∀ (n : Nat) (xs : List α), List.Perm (fyAux rand n xs) xs := by
  intro n
  induction n using Nat.strong_induction_on with
  | _ n ih =>
    match n with
    | 0 => intro xs; exact List.Perm.refl xs
    | 1 => intro xs; exact List.Perm.refl xs
    | m + 2 =>
      intro xs
      exact (ih (m + 1) (by omega) _).trans (swapL_perm xs (m + 1) (rand (m + 1) % (m + 2)))

theorem fisherYates_perm {α : Type} (rand : Nat → Nat) (xs : List α) :
    List.Perm (fisherYates rand xs) xs :=
  fyAux_perm rand xs.length xs

theorem fisherYates_ne_nil {α : Type} (rand : Nat → Nat) (xs : List α) (h : xs ≠ []) :
    fisherYates rand xs ≠ [] := by
  intro hc
  have hlen := (fisherYates_perm rand xs).length_eq
  rw [hc] at hlen
  cases xs with
  | nil => exact h rfl
  | cons y ys => simp at hlen

/-- Result of `BatchQueue::push`. -/
structure PushResult where
  flushedId : Option String
  queueLen : Nat
  state : QueueState
  emitted : Option ReadyBatch
deriving DecidableEq, Repr

/-- Embedding of `BatchQueue::push`: append with the enqueue instant, then
size-triggered flush when the length reaches `max_size`.  On flush the
batch id is returned even if the channel send fails (the source logs and
drops the batch in that case). -/
def queuePush (q : QueueState) (tx : PendingTx) (now : Nat) (rand : Nat → Nat)
    (newId : String) : PushResult :=
  let pending := q.pending ++ [(tx, now)]
  if q.max_size ≤ pending.length then
    let txs := fisherYates rand (pending.map Prod.fst)
    { flushedId := some newId, queueLen := 0,
      state := { q with pending := [] },
      emitted := if q.channelOpen then some { batch_id := newId, transactions := txs }
                 else none }
  else
    { flushedId := none, queueLen := pending.length,
      state := { q with pending := pending }, emitted := none }

/-- Result of `BatchQueue::force_flush` and of one timeout-loop tick. -/
structure FlushResult where
  flushedId : Option String
  state : QueueState
  emitted : Option ReadyBatch
deriving DecidableEq, Repr

/-- Embedding of `BatchQueue::force_flush`: refuse on an empty queue or one
below `min_batch_size`; otherwise drain, shuffle and send.  When the send
fails the source returns `None` (the queue has still been drained). -/
def force_flush (q : QueueState) (rand : Nat → Nat) (newId : String) : FlushResult :=
  if q.pending = [] then
    { flushedId := none, state := q, emitted := none }
  else if q.pending.length < q.min_batch_size then
    { flushedId := none, state := q, emitted := none }
  else
    let txs := fisherYates rand (q.pending.map Prod.fst)
    if q.channelOpen then
      { flushedId := some newId, state := { q with pending := [] },
        emitted := some { batch_id := newId, transactions := txs } }
    else
      { flushedId := none, state := { q with pending := [] }, emitted := none }

/-- Embedding of one iteration of the `spawn_timeout_loop` body: under a
single lock, inspect emptiness, the oldest element's age and the length,
then drain-shuffle-emit when the flush condition holds. -/
def timeout_tick (q : QueueState) (now : Nat) (rand : Nat → Nat) (newId : String) :
    QueueState × Option ReadyBatch :=
  match q.pending with
  | [] => (q, none)
  | oldest :: _ =>
    let oldest_elapsed := now - oldest.2
    let timeout_reached := q.timeout ≤ oldest_elapsed
    let max_wait_reached := q.max_wait ≤ oldest_elapsed
    let has_min := q.min_batch_size ≤ q.pending.length
    let should_flush := (timeout_reached && has_min) || max_wait_reached
    if should_flush then
      let txs := fisherYates rand (q.pending.map Prod.fst)
      ({ q with pending := [] },
        if q.channelOpen then some { batch_id := newId, transactions := txs } else none)
    else
      (q, none)

/-- Operations driving a queue trace: concurrent producers pushing, the
timeout loop ticking, and admin force flushes. -/
inductive QOp
  | push (tx : PendingTx) (now : Nat) (newId : String)
  | tick (now : Nat) (newId : String)
  | force (newId : String)
deriving DecidableEq, Repr

/-- One step of the queue under an operation. -/
def applyOp (rand : Nat → Nat) (q : QueueState) : QOp → QueueState × Option ReadyBatch
  | .push tx now newId =>
    let r := queuePush q tx now rand newId
    (r.state, r.emitted)
  | .tick now newId => timeout_tick q now rand newId
  | .force newId =>
    let r := force_flush q rand newId
    (r.state, r.emitted)

/-- Run a list of operations, collecting the emitted batches in order. -/
def runOps (rand : Nat → Nat) : QueueState → List QOp → QueueState × List ReadyBatch
  | q, [] => (q, [])
  | q, op :: ops =>
    let step := applyOp rand q op
    let rest := runOps rand step.1 ops
    (rest.1, (match step.2 with | some b => [b] | none => []) ++ rest.2)

/-- All transactions of a list of emitted batches, in emission order. -/
def emittedTxs (bs : List ReadyBatch) : List PendingTx :=
  bs.foldr (fun b acc => b.transactions ++ acc) []

/-- The transactions pushed by a list of operations, in push order. -/
def pushedTxs (ops : List QOp) : List PendingTx :=
  ops.filterMap (fun op => match op with | .push tx _ _ => some tx | _ => none)

/-! ## Prover orchestrator (`prover.rs`)

The external collaborators — pool-client validation, the `TxBuilder` proof,
`hash_batch_public_inputs_for_cairo` and `run_vm31_relayer_flow` — are
modelled as the outcomes they deliver to `process_batch`, which only ever
branches on success versus error and threads the values through.  Bridge
calls are non-fatal and touch no relayer state, so they do not appear in
the state transition. -/

/-- Lower-case hex digit. -/
def hexDigit (n : Nat) : Char :=
  if n < 10 then Char.ofNat (48 + n) else Char.ofNat (87 + n)

/-- Zero-padded lower-case hex rendering over `w` nibbles (the `{:08x}` /
`{:016x}` format specifiers). -/
def hexPad (w : Nat) (n : Nat) : String :=
  String.mk ((List.range w).map (fun i => hexDigit ((n >>> ((w - 1 - i) * 4)) % 16)))

/-- Little-endian bytes of a `u32` value (`u32::to_le_bytes`). -/
def u32LeBytes (v : Nat) : List Nat :=
  [v % 256, (v >>> 8) % 256, (v >>> 16) % 256, (v >>> 24) % 256]

/-- Little-endian bytes of a `u64` value (`u64::to_le_bytes`). -/
def u64LeBytes (v : Nat) : List Nat :=
  (List.range 8).map (fun i => (v >>> (8 * i)) % 256)

/-- One FNV-1a step with `u64` wrapping multiplication. -/
def fnvStep (state b : Nat) : Nat :=
  ((state ^^^ b) * 0x100000001b3) % (2 ^ 64)

/-- FNV-1a over a byte stream from the standard offset basis. -/
def fnvBytes (bytes : List Nat) : Nat :=
  bytes.foldl fnvStep 0xcbf29ce484222325

/-- Embedding of `DepositNoteInfo` (deposit projection captured before the
proving step moves the transactions). -/
structure DepositNoteInfo where
  owner_pubkey : List Nat
  asset_id : Nat
  amount : Nat
  blinding : List Nat
deriving DecidableEq, Repr

/-- Embedding of `DepositNoteInfo::commitment_key`: FNV-1a over the
little-endian bytes of owner pubkey, asset id, amount and blinding, rendered
as 16 lower-case hex characters. -/
def DepositNoteInfo.commitment_key (info : DepositNoteInfo) : String :=
  hexPad 16 (fnvBytes
    ((info.owner_pubkey.map u32LeBytes).flatten ++ u32LeBytes info.asset_id ++
      u64LeBytes info.amount ++ (info.blinding.map u32LeBytes).flatten))

/-- Embedding of `ProverService::extract_deposit_notes`: the blinding is
recorded as `[0,0,0,0]` because the real blinding is generated server-side
by the `TxBuilder` and is not available at extraction time. -/
def extract_deposit_notes (txs : List PendingTx) : List DepositNoteInfo :=
  txs.foldr
    (fun tx acc =>
      match tx with
      | PendingTx.Deposit amount asset_id recipient_pubkey _ =>
        { owner_pubkey := recipient_pubkey, asset_id := asset_id, amount := amount,
          blinding := [0, 0, 0, 0] } :: acc
      | _ => acc)
    []

/-- Transaction-kind tag captured before proving: deposit `0`, withdraw `1`,
transfer `2`. -/
def tx_kind : PendingTx → Nat
  | PendingTx.Deposit _ _ _ _ => 0
  | PendingTx.Withdraw _ _ _ _ _ _ _ => 1
  | PendingTx.Transfer _ _ _ _ _ _ _ => 2

/-- Embedding of `ProverService::extract_deposit_digests`: replay the kind
stream over the proof's ordered `new_commitments` (deposit consumes one
commitment, withdraw none, transfer two) and collect the deposit ones. -/
def extract_deposit_digests (tx_kinds : List Nat) (new_commitments : List (List Nat)) :
    List (List Nat) :=
  (tx_kinds.foldl
    (fun (acc : List (List Nat) × Nat) kind =>
      if kind = 0 then
        (match new_commitments[acc.2]? with
          | some c => acc.1 ++ [c]
          | none => acc.1, acc.2 + 1)
      else if kind = 2 then
        (acc.1, acc.2 + 2)
      else
        acc)
    ([], 0)).1

/-- Embedding of `ProverError` from `prover.rs`. -/
inductive ProverErr
  | Validation (msg : String)
  | Proving (msg : String)
  | Relayer (msg : String)
  | Store (msg : String)
deriving DecidableEq, Repr

/-- Rendering of `ProverError`'s `Display` impl. -/
def ProverErr.render : ProverErr → String
  | .Validation m => ("validation: ") ++ m
  | .Proving m => ("proving: ") ++ m
  | .Relayer m => ("relayer: ") ++ m
  | .Store m => ("store: ") ++ m

/-- Embedding of `RelayOutcome` returned by `run_vm31_relayer_flow`. -/
structure RelayOutcome where
  batch_id : String
  proof_hash : String
  finalized : Bool
deriving DecidableEq, Repr

/-- Proof artifact surface used by `process_batch`: the ordered output-note
commitment digests (each 8 field words). -/
structure ProvenTx where
  new_commitments : List (List Nat)
deriving DecidableEq, Repr

/-- Outcomes of the external collaborators invoked by one `process_batch`
run: chain-state validation, build-and-prove, public-input hashing, and the
on-chain relayer flow. -/
structure ProverEnv where
  validation : Except String Unit
  proving : Except String ProvenTx
  hashWords : ProvenTx → Except String (List Nat)
  relay : Except String RelayOutcome

/-- Write the per-deposit `NoteRecord`s after finalization (step 7 of
`process_batch`): sentinel Merkle fields, the positionally extracted
commitment digest, and the note's index within the batch. -/
def saveDepositNotes (infos : List DepositNoteInfo) (digests : List (List Nat))
    (batch_id : String) (now : Nat) (notes : List (String × NoteRecord)) :
    List (String × NoteRecord) :=
  (infos.enum.foldl
    (fun acc p =>
      let commitment := p.2.commitment_key
      save_note acc commitment
        { commitment := commitment,
          merkle_path := { siblings := [], index := 0 },
          merkle_root := List.replicate 8 0,
          batch_id := batch_id,
          created_at := now,
          commitment_digest := digests[p.1]?,
          note_index_in_batch := p.1 })
    notes)

/-- Embedding of `ProverService::process_batch`: the straight-line pipeline
with its store writes.  Returns the updated batch map, note map, the ordered
list of statuses written for this batch, and the overall result. -/
def process_batch (env : ProverEnv) (now : Nat) (batch_id : String) (txs : List PendingTx)
    (batches : List (String × BatchRecord)) (notes : List (String × NoteRecord)) :
    List (String × BatchRecord) × List (String × NoteRecord) × List BatchStatus ×
      Except ProverErr Unit :=
  let record := BatchRecord.new batch_id txs.length now
  let batches := save_batch batches batch_id record
  let trace := [BatchStatus.Pending]
  match env.validation with
  | Except.error e => (batches, notes, trace, Except.error (ProverErr.Validation e))
  | Except.ok _ =>
  let deposit_notes := extract_deposit_notes txs
  let tx_kinds := txs.map tx_kind
  match update_status batches batch_id BatchStatus.Proving {} with
  | Except.error e => (batches, notes, trace, Except.error (ProverErr.Store e.render))
  | Except.ok batches =>
  let trace := trace ++ [BatchStatus.Proving]
  match env.proving with
  | Except.error e => (batches, notes, trace, Except.error (ProverErr.Proving e))
  | Except.ok proven =>
  match env.hashWords proven with
  | Except.error e =>
    (batches, notes, trace, Except.error (ProverErr.Proving (("hash error: ") ++ e)))
  | Except.ok words =>
  let proof_hash := ("0x") ++ String.join (words.map (hexPad 8))
  match update_status batches batch_id BatchStatus.Submitting
      { proof_hash := some proof_hash } with
  | Except.error e => (batches, notes, trace, Except.error (ProverErr.Store e.render))
  | Except.ok batches =>
  let trace := trace ++ [BatchStatus.Submitting]
  match env.relay with
  | Except.error e => (batches, notes, trace, Except.error (ProverErr.Relayer e))
  | Except.ok outcome =>
  match update_status batches batch_id BatchStatus.Finalized
      { batch_id_onchain := some outcome.batch_id, tx_hash := some outcome.proof_hash } with
  | Except.error e => (batches, notes, trace, Except.error (ProverErr.Store e.render))
  | Except.ok batches =>
  let trace := trace ++ [BatchStatus.Finalized]
  let digests := extract_deposit_digests tx_kinds proven.new_commitments
  let notes := saveDepositNotes deposit_notes digests batch_id now notes
  (batches, notes, trace, Except.ok ())

/-- Embedding of one iteration of `ProverService::run`: process the batch
and, on any error, unconditionally mark the record `Failed` with the
rendered error string (the write's own result is discarded). -/
def run_step (env : ProverEnv) (now : Nat) (ready : ReadyBatch)
    (batches : List (String × BatchRecord)) (notes : List (String × NoteRecord)) :
    List (String × BatchRecord) × List (String × NoteRecord) × List BatchStatus :=
  match process_batch env now ready.batch_id ready.transactions batches notes with
  | (batches', notes', trace, Except.ok _) => (batches', notes', trace)
  | (batches', notes', trace, Except.error e) =>
    match update_status batches' ready.batch_id BatchStatus.Failed
        { error := some e.render } with
    | Except.ok batches'' => (batches'', notes', trace ++ [BatchStatus.Failed])
    | Except.error _ => (batches', notes', trace)

/-! ## Ingress submit pipeline (`routes.rs`)

The SHA-256 digests behind the idempotency keys come from the external
`sha2` crate; they are modelled as injective canonical encodings of the
hashed content.  Every property proved below relies only on the key being a
deterministic function of that content.  The X25519/HKDF/AES-GCM portion of
ECIES decryption (external crates) is a parameter; the version check that
precedes it in the source is concrete.  The wall-clock timing of the
submission path is an explicit cost model in microseconds: `resolve` is the
time consumed by envelope resolution and `post` the time consumed by the
steps after the timing pad. -/

/-- Canonical encoding of a word list. -/
def encList (l : List Nat) : String :=
  ("[") ++ String.intercalate (",") (l.map toString) ++ ("]")

/-- Canonical encoding of a `NoteJson`. -/
def encNoteJson (n : NoteJson) : String :=
  ("note(") ++ encList n.owner_pubkey ++ (",") ++ toString n.asset_id ++ (",") ++
    toString n.amount_lo ++ (",") ++ toString n.amount_hi ++ (",") ++
    encList n.blinding ++ (")")

/-- Canonical encoding of a `MerklePathJson`. -/
def encMerklePathJson (p : MerklePathJson) : String :=
  ("path(") ++ String.intercalate (";") (p.siblings.map encList) ++ (",") ++
    toString p.index ++ (")")

/-- Canonical encoding of an `InputNoteJson`. -/
def encInputNoteJson (i : InputNoteJson) : String :=
  ("input(") ++ encNoteJson i.note ++ (",") ++ encList i.spending_key ++ (",") ++
    encMerklePathJson i.merkle_path ++ (")")

/-- Canonical encoding of a plaintext `SubmitRequest` (stands for its
serde-JSON serialization). -/
def encSubmitRequest : SubmitRequest → String
  | .Deposit amount asset_id rpk rvk =>
    ("deposit(") ++ toString amount ++ (",") ++ toString asset_id ++ (",") ++
      encList rpk ++ (",") ++ encList rvk ++ (")")
  | .Withdraw amount asset_id note sk mp mr wb salt =>
    ("withdraw(") ++ toString amount ++ (",") ++ toString asset_id ++ (",") ++
      encNoteJson note ++ (",") ++ encList sk ++ (",") ++ encMerklePathJson mp ++ (",") ++
      encList mr ++ (",") ++ encList wb ++ (",") ++
      (match salt with | some s => encList s | none => ("none")) ++ (")")
  | .Transfer amount asset_id rpk rvk svk ins mr =>
    ("transfer(") ++ toString amount ++ (",") ++ toString asset_id ++ (",") ++
      encList rpk ++ (",") ++ encList rvk ++ (",") ++ encList svk ++ (",") ++
      encInputNoteJson ins.1 ++ (",") ++ encInputNoteJson ins.2 ++ (",") ++
      encList mr ++ (")")

/-- Embedding of `SubmitRequest::idempotency_key`: the SHA-256 digest of the
canonical JSON payload, modelled as the canonical encoding itself. -/
def SubmitRequest.idemKey (r : SubmitRequest) : String :=
  ("sha256:") ++ encSubmitRequest r

/-- Embedding of `EncryptedSubmitRequest`. -/
structure EncryptedSubmitRequest where
  ephemeral_pubkey : String
  ciphertext : String
  nonce : String
  version : Nat
deriving DecidableEq, Repr

/-- Embedding of `EncryptedSubmitRequest::idempotency_key`:
`SHA-256(ephemeral_pubkey || nonce || ciphertext-prefix of at most 64
bytes)` under an `enc:` tag, the digest again modelled as the hashed content
itself. -/
def EncryptedSubmitRequest.idemKey (e : EncryptedSubmitRequest) : String :=
  let ct_prefix := if 64 < e.ciphertext.length then e.ciphertext.take 64 else e.ciphertext
  ("enc:sha256:") ++ e.ephemeral_pubkey ++ ("|") ++ e.nonce ++ ("|") ++ ct_prefix

/-- Value of one hex digit character, if any. -/
def hexDigitVal (c : Char) : Option Nat :=
  if ('0' ≤ c ∧ c ≤ '9') then some (c.toNat - 48)
  else if ('a' ≤ c ∧ c ≤ 'f') then some (c.toNat - 87)
  else if ('A' ≤ c ∧ c ≤ 'F') then some (c.toNat - 55)
  else none

/-- Byte-wise hex decoding (`hex::decode`): requires an even number of hex
digit characters. -/
def hexPairs : List Char → Option (List Nat)
  | [] => some []
  | [_] => none
  | c1 :: c2 :: rest => do
    let hi ← hexDigitVal c1
    let lo ← hexDigitVal c2
    let tail ← hexPairs rest
    some ((16 * hi + lo) :: tail)

/-- Hex decoding of a string into bytes. -/
def hexDecode (s : String) : Option (List Nat) :=
  hexPairs s.toList

/-- The cryptographic remainder of ECIES decryption (ECDH, HKDF-SHA256,
AES-256-GCM, JSON deserialization — all external crates), as a function of
the relayer secret and the envelope. -/
def CryptoOracle : Type :=
  List Nat → EncryptedSubmitRequest → Except AppError SubmitRequest

/-- Embedding of `EncryptedSubmitRequest::decrypt`: concrete version and
ephemeral-public-key checks from the source, followed by the external
cryptographic pipeline. -/
def decryptEnvelope (oracle : CryptoOracle) (secret : List Nat)
    (e : EncryptedSubmitRequest) : Except AppError SubmitRequest :=
  if e.version ≠ 1 then
    Except.error (AppError.BadRequest (("unsupported ECIES version: ") ++ toString e.version))
  else
    match hexDecode e.ephemeral_pubkey with
    | none => Except.error (AppError.BadRequest ("invalid ephemeral_pubkey hex"))
    | some epk =>
      if epk.length ≠ 32 then
        Except.error (AppError.BadRequest ("ephemeral_pubkey must be 32 bytes"))
      else
        oracle secret e

/-- Embedding of `SubmitBody` (untagged union). -/
inductive SubmitBody
  | Encrypted (e : EncryptedSubmitRequest)
  | Plaintext (r : SubmitRequest)
deriving DecidableEq, Repr

/-- Configuration surface of `RelayerConfig` used by the ingress. -/
structure Config where
  api_keys : List String
  rate_limit_per_min : Nat
  legacy_plaintext_allowed : Bool
  relayer_private_key : Option (List Nat)
deriving DecidableEq, Repr

/-- Embedding of `RelayerConfig::is_api_key_valid`: the constant-time
comparison decides string equality against the configured key set. -/
def is_api_key_valid (cfg : Config) (key : String) : Bool :=
  cfg.api_keys.any (fun vk => key = vk)

/-- Result of envelope resolution (step 5 of `submit`). -/
structure ResolvedEnvelope where
  req : SubmitRequest
  idem_key : String
deriving DecidableEq, Repr

/-- Envelope resolution: decrypt an ECIES envelope (computing the
idempotency key before decryption) or accept a plaintext request when
`legacy_plaintext_allowed`. -/
def resolve_envelope (cfg : Config) (oracle : CryptoOracle) (body : SubmitBody) :
    Except AppError ResolvedEnvelope :=
  match body with
  | .Encrypted enc =>
    let idem_key := enc.idemKey
    match cfg.relayer_private_key with
    | none => Except.error (AppError.Internal ("ECIES not configured"))
    | some secret =>
      match decryptEnvelope oracle secret enc with
      | Except.error e => Except.error e
      | Except.ok r => Except.ok { req := r, idem_key := idem_key }
  | .Plaintext r =>
    if !cfg.legacy_plaintext_allowed then
      Except.error (AppError.BadRequest
        ("plaintext submissions disabled, use ECIES encryption"))
    else
      Except.ok { req := r, idem_key := r.idemKey }

/-- Minimum processing time enforced by the timing pad, in microseconds
(`Duration::from_millis(5)`). -/
def MIN_PROCESSING_MICROS : Nat := 5000

/-- Successful `submit` response body. -/
structure SubmitOk where
  http : Nat
  status : String
  cached_result : Option String
  batch_id : Option String
  queue_position : Option Nat
  idempotency_key : String
deriving DecidableEq, Repr

/-- Modelled wall-clock durations of one submission, in microseconds. -/
structure SubmitCosts where
  resolve : Nat
  post : Nat
deriving DecidableEq, Repr

instance exceptDecEq {ε α : Type} [DecidableEq ε] [DecidableEq α] :
    DecidableEq (Except ε α) := fun x y =>
  match x, y with
  | Except.ok a, Except.ok b =>
    if h : a = b then isTrue (by rw [h]) else isFalse (by simp [h])
  | Except.error a, Except.error b =>
    if h : a = b then isTrue (by rw [h]) else isFalse (by simp [h])
  | Except.ok _, Except.error _ => isFalse (by simp)
  | Except.error _, Except.ok _ => isFalse (by simp)

/-- Full outcome of one `submit` call: the HTTP response, the updated store
and queue, any emitted batch, the modelled time from the start of envelope
resolution to the response (`none` when the request fails before envelope
resolution), and whether the timing pad ran. -/
structure SubmitOutcome where
  response : Except AppError SubmitOk
  store : StoreState
  queue : QueueState
  emitted : Option ReadyBatch
  envElapsed : Option Nat
  padApplied : Bool
deriving DecidableEq, Repr

/-- Embedding of the `submit` handler: authentication, per-key and per-IP
rate limits, queue-capacity check, envelope resolution, the ≥ 5 ms timing
pad, the atomic idempotency check-and-set with the placeholder value
`"pending"`, validation, and the queue push. -/
def submit (cfg : Config) (oracle : CryptoOracle) (rand : Nat → Nat) (newId : String)
    (costs : SubmitCosts) (apiKey : Option String) (clientIp : String) (body : SubmitBody)
    (now : Nat) (store : StoreState) (queue : QueueState) : SubmitOutcome :=
  match apiKey with
  | none =>
    { response := Except.error AppError.Unauthorized, store := store, queue := queue,
      emitted := none, envElapsed := none, padApplied := false }
  | some key =>
  if !is_api_key_valid cfg key then
    { response := Except.error AppError.Unauthorized, store := store, queue := queue,
      emitted := none, envElapsed := none, padApplied := false }
  else
  let rl := check_rate store.rate_limits (("key:") ++ key) cfg.rate_limit_per_min 60 now
  let store := { store with rate_limits := rl.2 }
  if !rl.1 then
    { response := Except.error AppError.RateLimited, store := store, queue := queue,
      emitted := none, envElapsed := none, padApplied := false }
  else
  let rl2 := check_rate store.rate_limits (("ip:") ++ clientIp)
    (cfg.rate_limit_per_min * 3) 60 now
  let store := { store with rate_limits := rl2.2 }
  if !rl2.1 then
    { response := Except.error AppError.RateLimited, store := store, queue := queue,
      emitted := none, envElapsed := none, padApplied := false }
  else
  if MAX_PENDING_TXS ≤ queue.pending.length then
    { response := Except.error AppError.BatchFull, store := store, queue := queue,
      emitted := none, envElapsed := none, padApplied := false }
  else
  match resolve_envelope cfg oracle body with
  | Except.error e =>
    { response := Except.error e, store := store, queue := queue, emitted := none,
      envElapsed := some costs.resolve, padApplied := false }
  | Except.ok res =>
  let sleep := if costs.resolve < MIN_PROCESSING_MICROS then
    MIN_PROCESSING_MICROS - costs.resolve else 0
  let base := costs.resolve + sleep
  let cas := check_and_set store.idempotency res.idem_key ("pending") now
  let store := { store with idempotency := cas.2 }
  match cas.1 with
  | some cached =>
    { response := Except.ok
        { http := 200, status := ("duplicate"), cached_result := some cached,
          batch_id := none, queue_position := none, idempotency_key := res.idem_key },
      store := store, queue := queue, emitted := none,
      envElapsed := some (base + costs.post), padApplied := true }
  | none =>
  match validate_and_convert res.req with
  | Except.error e =>
    { response := Except.error e, store := store, queue := queue, emitted := none,
      envElapsed := some (base + costs.post), padApplied := true }
  | Except.ok tx =>
  let pr := queuePush queue tx now rand newId
  { response := Except.ok
      { http := 202,
        status := if pr.flushedId.isSome then ("batch_triggered") else ("queued"),
        cached_result := none, batch_id := pr.flushedId,
        queue_position := some pr.queueLen, idempotency_key := res.idem_key },
    store := store, queue := pr.state, emitted := pr.emitted,
    envElapsed := some (base + costs.post), padApplied := true }

/-! ## Shared lemmas about the validators -/

/-- Every error produced by the ingress validators is a `BadRequest`. -/
def AppError.isBad (e : AppError) : Prop := ∃ msg, e = AppError.BadRequest msg

theorem validate_m31_bad (v : Nat) (f : String) (e : AppError)
    (h : validate_m31 v f = Except.error e) : e.isBad := by
  unfold validate_m31 at h
  split at h
  · exact ⟨_, (Except.error.inj h).symm⟩
  · exact Except.noConfusion h

theorem validate_m31_seq_bad (arr : List Nat) (f : String) (e : AppError)
    (h : validate_m31_seq arr f = Except.error e) : e.isBad := by
  induction arr generalizing e with
  | nil => exact Except.noConfusion h
  | cons v rest ih =>
    unfold validate_m31_seq at h
    split at h
    · next heq => obtain rfl := Except.error.inj h; exact validate_m31_bad _ _ _ heq
    · split at h
      · next heq => obtain rfl := Except.error.inj h; exact ih _ heq
      · exact Except.noConfusion h

theorem validate_amount_bad (amount : Nat) (e : AppError)
    (h : validate_amount amount = Except.error e) : e.isBad := by
  unfold validate_amount at h
  split at h
  · exact ⟨_, (Except.error.inj h).symm⟩
  · split at h
    · exact ⟨_, (Except.error.inj h).symm⟩
    · exact Except.noConfusion h

theorem validate_denomination_bad (amount asset_id : Nat) (e : AppError)
    (h : validate_denomination amount asset_id = Except.error e) : e.isBad := by
  unfold validate_denomination at h
  split at h
  · split at h
    · exact Except.noConfusion h
    · exact ⟨_, (Except.error.inj h).symm⟩
  · exact Except.noConfusion h

theorem validateSiblings_bad (i : Nat) (sibs : List (List Nat)) (e : AppError)
    (h : validateSiblings i sibs = Except.error e) : e.isBad := by
  induction sibs generalizing i e with
  | nil => exact Except.noConfusion h
  | cons s rest ih =>
    unfold validateSiblings at h
    split at h
    · next heq => obtain rfl := Except.error.inj h; exact validate_m31_seq_bad _ _ _ heq
    · split at h
      · next heq => obtain rfl := Except.error.inj h; exact ih _ _ heq
      · exact Except.noConfusion h

theorem validate_merkle_path_bad (p : MerklePathJson) (e : AppError)
    (h : validate_merkle_path p = Except.error e) : e.isBad := by
  unfold validate_merkle_path at h
  split at h
  · exact ⟨_, (Except.error.inj h).symm⟩
  · split at h
    · next heq => obtain rfl := Except.error.inj h; exact validateSiblings_bad _ _ _ heq
    · exact Except.noConfusion h

theorem validate_note_bad (n : NoteJson) (e : AppError)
    (h : validate_note n = Except.error e) : e.isBad := by
  unfold validate_note at h
  repeat' split at h
  all_goals first
    | exact Except.noConfusion h
    | (obtain rfl := Except.error.inj h
       first
         | exact validate_m31_seq_bad _ _ _ (by assumption)
         | exact validate_m31_bad _ _ _ (by assumption))

theorem validate_and_convert_bad (r : SubmitRequest) (e : AppError)
    (h : validate_and_convert r = Except.error e) : e.isBad := by
  cases r with
  | Deposit a b c d =>
    simp only [validate_and_convert] at h
    repeat' split at h
    all_goals first
      | exact Except.noConfusion h
      | (obtain rfl := Except.error.inj h
         first
           | exact validate_amount_bad _ _ (by assumption)
           | exact validate_denomination_bad _ _ _ (by assumption)
           | exact validate_m31_seq_bad _ _ _ (by assumption))
  | Withdraw a b n sk mp mr wb salt =>
    simp only [validate_and_convert] at h
    repeat' split at h
    all_goals first
      | exact Except.noConfusion h
      | (obtain rfl := Except.error.inj h
         first
           | exact validate_amount_bad _ _ (by assumption)
           | exact validate_note_bad _ _ (by assumption)
           | exact validate_merkle_path_bad _ _ (by assumption)
           | exact validate_m31_seq_bad _ _ _ (by assumption))
  | Transfer a b c d f ins mr =>
    simp only [validate_and_convert] at h
    repeat' split at h
    all_goals first
      | exact Except.noConfusion h
      | (obtain rfl := Except.error.inj h
         first
           | exact validate_amount_bad _ _ (by assumption)
           | exact validate_note_bad _ _ (by assumption)
           | exact validate_merkle_path_bad _ _ (by assumption)
           | exact validate_m31_seq_bad _ _ _ (by assumption))

/-! ## Claim C2 -/

/-- C2: the claim states that the field-element check rejects every value
outside `[0, 2^31 - 2]` (the prime field of order `2^31 - 1`).  The code's
check is `val > M31_MODULUS` with `M31_MODULUS = 2^31 - 1`, so the
non-canonical value `2147483647 = 2^31 - 1` — outside the field — is
accepted and handed to `M31::from_u32_unchecked`; the first values actually
rejected start at `2^31`.  This theorem evaluates the embedded code at the
failing input and at the first rejected one. -/
theorem c2_validate_m31_accepts_modulus :
    validate_m31 2147483647 ("recipient_pubkey") = Except.ok 2147483647 ∧
    (2 ^ 31 - 2 < 2147483647) ∧
    validate_m31 2147483648 ("recipient_pubkey") = Except.error (AppError.BadRequest
      ("recipient_pubkey: value 2147483648 exceeds M31 field modulus")) := by
  refine ⟨by decide, by decide, by decide⟩

/-! ## Claim C5 -/

theorem map_decide_lt_all_false (c c' limit n : Nat) (h : limit ≤ c) (h' : limit ≤ c') :
    (List.range n).map (fun j => decide (c + j < limit)) =
      (List.range n).map (fun j => decide (c' + j < limit)) := by
  apply List.map_congr_left
  intro j _
  have h1 : ¬ (c + j < limit) := by omega
  have h2 : ¬ (c' + j < limit) := by omega
  simp [h1, h2]

theorem range_map_decide_succ (c limit n : Nat) :
    (List.range (n + 1)).map (fun j => decide (c + j < limit)) =
      decide (c < limit) :: (List.range n).map (fun j => decide (c + 1 + j < limit)) := by
  rw [List.range_succ_eq_map, List.map_cons, List.map_map]
  refine congrArg₂ _ (by simp) ?_
  apply List.map_congr_left
  intro j _
  simp only [Function.comp_apply]
  exact decide_eq_decide.mpr (by omega)

theorem rateCalls_window_aux (key : String) (limit window : Nat) :
    ∀ (ts : List Nat) (m : List (String × (Nat × Nat))) (c t₀ : Nat),
      lookupA key m = some (c, t₀) →
      (∀ t ∈ ts, t₀ ≤ t ∧ t - t₀ < window) →
      (rateCalls key limit window m ts).1
        = (List.range ts.length).map (fun j => decide (c + j < limit)) := by
  intro ts
  induction ts with
  | nil => intro m c t₀ _ _; simp [rateCalls]
  | cons t ts ih =>
    intro m c t₀ hl hts
    obtain ⟨ht0, htw⟩ := hts t (by simp)
    have hts' : ∀ u ∈ ts, t₀ ≤ u ∧ u - t₀ < window := fun u hu => hts u (by simp [hu])
    have hnr : ¬ (window ≤ t - t₀) := by omega
    rw [List.length_cons, range_map_decide_succ]
    by_cases hc : limit ≤ c
    · have hcr : check_rate m key limit window t = (false, setAssoc key (c, t₀) m) := by
        simp [check_rate, hl, hnr, hc]
      have hrest := ih (setAssoc key (c, t₀) m) c t₀ (lookupA_setAssoc_self _ _ _) hts'
      simp only [rateCalls, hcr, hrest]
      refine congrArg₂ _ (by simp [hc]) ?_
      exact map_decide_lt_all_false c (c + 1) limit ts.length hc (by omega)
    · have hcr : check_rate m key limit window t = (true, setAssoc key (c + 1, t₀) m) := by
        simp [check_rate, hl, hnr, hc]
      have hrest := ih (setAssoc key (c + 1, t₀) m) (c + 1) t₀
        (lookupA_setAssoc_self _ _ _) hts'
      simp only [rateCalls, hcr, hrest]
      refine congrArg₂ _ ?_ rfl
      have hlt : c < limit := by omega
      simp [hlt]

/-- C5: within a single window (every call strictly less than `window_secs`
after the first call, which creates the entry), `check_rate` admits exactly
the first `limit` calls and rejects every later one; and once at least
`window_secs` have elapsed since the stored window start, the entry is reset
to count `1` at the new start and the call is admitted.  In particular with
limit `3`, of four calls inside one window the first three are allowed and
the fourth refused. -/
theorem c5_rate_limit_window (key : String) (limit window : Nat)
    (m : List (String × (Nat × Nat))) (t₀ : Nat) (rest : List Nat)
    (hfresh : lookupA key m = none)
    (hin : ∀ t ∈ t₀ :: rest, t₀ ≤ t ∧ t - t₀ < window) :
    ((rateCalls key limit window m (t₀ :: rest)).1
        = (List.range (rest.length + 1)).map (fun i => decide (i < limit))) ∧
    (∀ (m' : List (String × (Nat × Nat))) (c s now : Nat),
      lookupA key m' = some (c, s) → window ≤ now - s → 0 < limit →
      check_rate m' key limit window now = (true, setAssoc key (1, now) m')) := by
  constructor
  · have hw : 0 < window := by
      have := (hin t₀ (by simp)).2
      omega
    have hzero :
        (List.range (rest.length + 1)).map (fun i => decide (i < limit)) =
          (List.range (rest.length + 1)).map (fun j => decide (0 + j < limit)) := by
      apply List.map_congr_left
      intro j _
      simp
    rw [hzero, range_map_decide_succ]
    have hts' : ∀ u ∈ rest, t₀ ≤ u ∧ u - t₀ < window := fun u hu => hin u (by simp [hu])
    have hnr : ¬ (window ≤ t₀ - t₀) := by omega
    by_cases hc : limit = 0
    · subst hc
      have hcr : check_rate m key 0 window t₀ = (false, setAssoc key (0, t₀) m) := by
        simp [check_rate, hfresh, hnr]
      have hrest := rateCalls_window_aux key 0 window rest (setAssoc key (0, t₀) m) 0 t₀
        (lookupA_setAssoc_self _ _ _) hts'
      simp only [rateCalls, hcr, hrest]
      refine congrArg₂ _ (by simp) ?_
      exact map_decide_lt_all_false 0 1 0 rest.length (by omega) (by omega)
    · have hcr : check_rate m key limit window t₀ = (true, setAssoc key (1, t₀) m) := by
        simp [check_rate, hfresh, hnr, hc]
      have hrest := rateCalls_window_aux key limit window rest (setAssoc key (1, t₀) m) 1 t₀
        (lookupA_setAssoc_self _ _ _) hts'
      simp only [rateCalls, hcr, hrest]
      refine congrArg₂ _ ?_ rfl
      simp
      omega
  · intro m' c s now hl hwin hlim
    have h1 : ¬ (limit ≤ 0) := by omega
    simp [check_rate, hl, hwin, h1]

/-- Witness for C5: a fresh key, limit `3`, window `60` seconds, four calls
at seconds `0,1,2,3` — the first three are admitted, the fourth refused. -/
theorem c5_rate_limit_window_witness :
    (rateCalls ("key:k1") 3 60 [] [0, 1, 2, 3]).1 = [true, true, true, false] := by
  have h := (c5_rate_limit_window ("key:k1") 3 60 [] 0 [1, 2, 3]
    (by decide) (by decide)).1
  exact h.trans (by decide)

/-! ## Claims C7 and C4 -/

/-- A queue with one transaction enqueued at instant `0`, production
configuration `min_batch_size = 3`, `max_wait = 300`. -/
def qOneTx : QueueState :=
  { pending := [(PendingTx.Deposit 1000 1 [0, 0, 0, 0] [0, 0, 0, 0], 0)],
    max_size := 16, timeout := 60, min_batch_size := 3, max_wait := 300,
    channelOpen := true }

/-- C7: `force_flush` returns a batch id and emits a batch only if the
queue is non-empty and at least `min_batch_size` long; when the queue is
empty or below `min_batch_size` it returns `None` and leaves the queued
transactions untouched — so a one-transaction force flush with
`min_batch_size = 3` is refused. -/
theorem c7_force_flush_refusal (q : QueueState) (rand : Nat → Nat) (newId : String) :
    (∀ bid, (force_flush q rand newId).flushedId = some bid →
      q.pending ≠ [] ∧ q.min_batch_size ≤ q.pending.length) ∧
    (∀ b, (force_flush q rand newId).emitted = some b →
      q.pending ≠ [] ∧ q.min_batch_size ≤ q.pending.length) ∧
    (q.pending = [] ∨ q.pending.length < q.min_batch_size →
      force_flush q rand newId = { flushedId := none, state := q, emitted := none }) := by
  refine ⟨?_, ?_, ?_⟩
  · intro bid h
    by_cases h1 : q.pending = []
    · simp [force_flush, h1] at h
    · by_cases h2 : q.pending.length < q.min_batch_size
      · simp [force_flush, h1, h2] at h
      · exact ⟨h1, by omega⟩
  · intro b h
    by_cases h1 : q.pending = []
    · simp [force_flush, h1] at h
    · by_cases h2 : q.pending.length < q.min_batch_size
      · simp [force_flush, h1, h2] at h
      · exact ⟨h1, by omega⟩
  · intro h
    rcases h with h1 | h2
    · simp [force_flush, h1]
    · by_cases h1 : q.pending = []
      · simp [force_flush, h1]
      · simp [force_flush, h1, h2]

/-- Witness for C7: the one-transaction queue with `min_batch_size = 3` is
refused and left unchanged. -/
theorem c7_force_flush_refusal_witness :
    force_flush qOneTx (fun _ => 0) ("b-force") =
      { flushedId := none, state := qOneTx, emitted := none } :=
  (c7_force_flush_refusal qOneTx (fun _ => 0) ("b-force")).2.2 (Or.inr (by decide))

/-- Reduction of one timeout tick on a non-empty queue to a propositional
case split on the flush condition. -/
theorem timeout_tick_cons (q : QueueState) (now : Nat) (rand : Nat → Nat) (newId : String)
    (tx₀ : PendingTx) (t₀ : Nat) (rest : List (PendingTx × Nat))
    (hp : q.pending = (tx₀, t₀) :: rest) :
    timeout_tick q now rand newId =
      if (q.timeout ≤ now - t₀ ∧ q.min_batch_size ≤ rest.length + 1) ∨
          q.max_wait ≤ now - t₀ then
        ({ q with pending := [] },
          if q.channelOpen then
            some { batch_id := newId,
                   transactions := fisherYates rand (tx₀ :: rest.map Prod.fst) }
          else none)
      else (q, none) := by
  by_cases h : (q.timeout ≤ now - t₀ ∧ q.min_batch_size ≤ rest.length + 1) ∨
      q.max_wait ≤ now - t₀
  · have hb : (decide (q.timeout ≤ now - t₀) &&
        decide (q.min_batch_size ≤ ((tx₀, t₀) :: rest).length) ||
        decide (q.max_wait ≤ now - t₀)) = true := by
      simp only [List.length_cons, Bool.or_eq_true, Bool.and_eq_true, decide_eq_true_eq]
      exact h
    simp [timeout_tick, hp, hb, h]
  · have hb : (decide (q.timeout ≤ now - t₀) &&
        decide (q.min_batch_size ≤ ((tx₀, t₀) :: rest).length) ||
        decide (q.max_wait ≤ now - t₀)) = false := by
      simp only [List.length_cons, Bool.or_eq_false_iff, Bool.and_eq_false_iff,
        decide_eq_false_iff_not]
      push_neg at h
      obtain ⟨h1, h2⟩ := h
      by_cases ht : q.timeout ≤ now - t₀
      · exact ⟨Or.inr (by omega), by omega⟩
      · exact ⟨Or.inl ht, by omega⟩
    simp [timeout_tick, hp, hb, h]

/-- C4: no emission path (size-triggered push flush, force flush, timeout
flush) ever emits an empty `ReadyBatch`; on a timeout tick with an open
channel the queue flushes exactly when it is non-empty and either the
oldest element has aged at least `timeout` with the queue at least
`min_batch_size` long, or the oldest element has aged at least `max_wait`;
in particular a lone transaction that has reached `max_wait` is flushed
even though the queue is below `min_batch_size`. -/
theorem c4_timeout_flush_policy (q : QueueState) (now : Nat) (rand : Nat → Nat)
    (newId : String) (hch : q.channelOpen = true) :
    ((timeout_tick q now rand newId).2.isSome = true ↔
      (∃ tx₀ t₀ rest, q.pending = (tx₀, t₀) :: rest ∧
        ((q.timeout ≤ now - t₀ ∧ q.min_batch_size ≤ q.pending.length) ∨
          q.max_wait ≤ now - t₀))) ∧
    (∀ b, (timeout_tick q now rand newId).2 = some b → b.transactions ≠ []) ∧
    (∀ tx b, (queuePush q tx now rand newId).emitted = some b → b.transactions ≠ []) ∧
    (∀ b, (force_flush q rand newId).emitted = some b → b.transactions ≠ []) ∧
    (∀ tx t₀, q.pending = [(tx, t₀)] → q.max_wait ≤ now - t₀ →
      (timeout_tick q now rand newId).2 =
        some { batch_id := newId, transactions := [tx] }) := by
  refine ⟨?_, ?_, ?_, ?_, ?_⟩
  · cases hp : q.pending with
    | nil => simp [timeout_tick, hp]
    | cons hd rest =>
      obtain ⟨tx₀, t₀⟩ := hd
      rw [timeout_tick_cons q now rand newId tx₀ t₀ rest hp]
      by_cases h : (q.timeout ≤ now - t₀ ∧ q.min_batch_size ≤ rest.length + 1) ∨
          q.max_wait ≤ now - t₀
      · simp only [h, if_true, hch]
        constructor
        · intro _
          exact ⟨tx₀, t₀, rest, rfl, by simpa using h⟩
        · intro _
          simp
      · simp only [h, if_false]
        constructor
        · intro habs
          simp at habs
        · rintro ⟨tx₁, t₁, rest₁, heq, hcond⟩
          exfalso
          injection heq with hpair hrest
          injection hpair with htx ht
          subst htx
          subst ht
          subst hrest
          apply h
          simpa using hcond
  · intro b hb
    cases hp : q.pending with
    | nil => simp [timeout_tick, hp] at hb
    | cons hd rest =>
      obtain ⟨tx₀, t₀⟩ := hd
      rw [timeout_tick_cons q now rand newId tx₀ t₀ rest hp] at hb
      by_cases h : (q.timeout ≤ now - t₀ ∧ q.min_batch_size ≤ rest.length + 1) ∨
          q.max_wait ≤ now - t₀
      · simp only [h, if_true, hch] at hb
        obtain rfl := Option.some.inj hb
        exact fisherYates_ne_nil rand (tx₀ :: rest.map Prod.fst) (by simp)
      · simp [h] at hb
  · intro tx b hb
    by_cases hsz : q.max_size ≤ q.pending.length + 1
    · simp only [queuePush, List.length_append, List.length_cons, List.length_nil,
        Nat.zero_add, hsz, if_true, hch, List.map_append, List.map_cons, List.map_nil,
        Option.some.injEq] at hb
      subst hb
      exact fisherYates_ne_nil rand (List.map Prod.fst q.pending ++ [tx]) (by simp)
    · simp [queuePush, hsz] at hb
  · intro b hb
    by_cases h1 : q.pending = []
    · simp [force_flush, h1] at hb
    · by_cases h2 : q.pending.length < q.min_batch_size
      · simp [force_flush, h1, h2] at hb
      · simp only [force_flush, h1, h2, if_false, hch, if_true, ite_false, ite_true,
          Option.some.injEq] at hb
        subst hb
        exact fisherYates_ne_nil rand (q.pending.map Prod.fst) (by simpa using h1)
  · intro tx t₀ hp hw
    rw [timeout_tick_cons q now rand newId tx t₀ [] hp]
    have h : (q.timeout ≤ now - t₀ ∧ q.min_batch_size ≤ ([] : List (PendingTx × Nat)).length + 1) ∨
        q.max_wait ≤ now - t₀ := Or.inr hw
    simp only [h, if_true, hch]
    simp [fisherYates, fyAux]

/-- Witness for C4: the lone transaction of `qOneTx`, enqueued at instant
`0` with `max_wait = 300` and `min_batch_size = 3`, is flushed on the tick
at instant `300`. -/
theorem c4_timeout_flush_policy_witness :
    (timeout_tick qOneTx 300 (fun _ => 0) ("b-t")).2 =
      some { batch_id := ("b-t"),
             transactions := [PendingTx.Deposit 1000 1 [0, 0, 0, 0] [0, 0, 0, 0]] } :=
  (c4_timeout_flush_policy qOneTx 300 (fun _ => 0) ("b-t") rfl).2.2.2.2
    (PendingTx.Deposit 1000 1 [0, 0, 0, 0] [0, 0, 0, 0]) 0 rfl (by decide)

/-! ## Claim C6 -/

/-- Transactions of an optional emitted batch. -/
def emitList : Option ReadyBatch → List PendingTx
  | some b => b.transactions
  | none => []

/-- The transaction pushed by an operation, if any. -/
def opPushed : QOp → List PendingTx
  | QOp.push tx _ _ => [tx]
  | _ => []

theorem applyOp_channelOpen (rand : Nat → Nat) (q : QueueState) (op : QOp) :
    (applyOp rand q op).1.channelOpen = q.channelOpen := by
  cases op with
  | push tx now newId =>
    simp only [applyOp, queuePush]
    split <;> rfl
  | tick now newId =>
    cases hp : q.pending with
    | nil => simp [applyOp, timeout_tick, hp]
    | cons hd rest =>
      obtain ⟨tx₀, t₀⟩ := hd
      show (timeout_tick q now rand newId).1.channelOpen = q.channelOpen
      rw [timeout_tick_cons q now rand newId tx₀ t₀ rest hp]
      split <;> rfl
  | force newId =>
    show (force_flush q rand newId).state.channelOpen = q.channelOpen
    simp only [force_flush]
    split_ifs <;> rfl

theorem applyOp_perm (rand : Nat → Nat) (q : QueueState) (op : QOp)
    (hch : q.channelOpen = true) :
    List.Perm
      (emitList (applyOp rand q op).2 ++ ((applyOp rand q op).1.pending.map Prod.fst))
      (q.pending.map Prod.fst ++ opPushed op) := by
  cases op with
  | push tx now newId =>
    show List.Perm
      (emitList (queuePush q tx now rand newId).emitted ++
        ((queuePush q tx now rand newId).state.pending.map Prod.fst))
      (q.pending.map Prod.fst ++ [tx])
    by_cases hsz : q.max_size ≤ q.pending.length + 1
    · have h := fisherYates_perm rand (List.map Prod.fst q.pending ++ [tx])
      simp only [queuePush, List.length_append, List.length_cons, List.length_nil,
        Nat.zero_add, hsz, if_true, hch, List.map_append, List.map_cons, List.map_nil,
        emitList]
      simpa using h
    · simp only [queuePush, List.length_append, List.length_cons, List.length_nil,
        Nat.zero_add, hsz, if_false, List.map_append, List.map_cons, List.map_nil,
        emitList]
      simp
  | tick now newId =>
    show List.Perm
      (emitList (timeout_tick q now rand newId).2 ++
        ((timeout_tick q now rand newId).1.pending.map Prod.fst))
      (q.pending.map Prod.fst ++ [])
    cases hp : q.pending with
    | nil => simp [timeout_tick, hp, emitList]
    | cons hd rest =>
      obtain ⟨tx₀, t₀⟩ := hd
      rw [timeout_tick_cons q now rand newId tx₀ t₀ rest hp]
      by_cases h : (q.timeout ≤ now - t₀ ∧ q.min_batch_size ≤ rest.length + 1) ∨
          q.max_wait ≤ now - t₀
      · simp only [h, if_true, hch, emitList]
        have hperm := fisherYates_perm rand (tx₀ :: rest.map Prod.fst)
        simpa [hp] using hperm
      · simp only [h, if_false, emitList]
        simp [hp]
  | force newId =>
    show List.Perm
      (emitList (force_flush q rand newId).emitted ++
        ((force_flush q rand newId).state.pending.map Prod.fst))
      (q.pending.map Prod.fst ++ [])
    by_cases h1 : q.pending = []
    · simp [force_flush, h1, emitList]
    · by_cases h2 : q.pending.length < q.min_batch_size
      · simp only [force_flush, h1, h2, if_false, ite_false, emitList]
        simp
      · simp only [force_flush, h1, h2, if_false, ite_false, hch, if_true, ite_true,
          emitList]
        simpa using fisherYates_perm rand (q.pending.map Prod.fst)

theorem emittedTxs_append (xs ys : List ReadyBatch) :
    emittedTxs (xs ++ ys) = emittedTxs xs ++ emittedTxs ys := by
  induction xs with
  | nil => rfl
  | cons b xs ih =>
    show b.transactions ++ emittedTxs (xs ++ ys) =
      (b.transactions ++ emittedTxs xs) ++ emittedTxs ys
    rw [ih, List.append_assoc]

theorem runOps_conservation (rand : Nat → Nat) :
    ∀ (ops : List QOp) (q : QueueState), q.channelOpen = true →
      List.Perm
        (emittedTxs (runOps rand q ops).2 ++ ((runOps rand q ops).1.pending.map Prod.fst))
        (q.pending.map Prod.fst ++ pushedTxs ops) := by
  intro ops
  induction ops with
  | nil =>
    intro q _
    simp only [runOps, emittedTxs, pushedTxs, List.foldr_nil, List.filterMap_nil,
      List.nil_append, List.append_nil]
    exact List.Perm.refl _
  | cons op ops ih =>
    intro q hch
    have hch' : (applyOp rand q op).1.channelOpen = true := by
      rw [applyOp_channelOpen]
      exact hch
    have hstep := applyOp_perm rand q op hch
    have hrest := ih (applyOp rand q op).1 hch'
    have hpush : pushedTxs (op :: ops) = opPushed op ++ pushedTxs ops := by
      cases op <;> simp [pushedTxs, opPushed]
    have hstepEmit :
        emittedTxs (match (applyOp rand q op).2 with | some b => [b] | none => []) =
          emitList (applyOp rand q op).2 := by
      cases (applyOp rand q op).2 <;> simp [emittedTxs, emitList]
    show List.Perm
      (emittedTxs ((match (applyOp rand q op).2 with | some b => [b] | none => []) ++
          (runOps rand (applyOp rand q op).1 ops).2) ++
        ((runOps rand (applyOp rand q op).1 ops).1.pending.map Prod.fst))
      (q.pending.map Prod.fst ++ pushedTxs (op :: ops))
    rw [emittedTxs_append, hstepEmit, hpush, List.append_assoc]
    refine List.Perm.trans (List.Perm.append_left _ hrest) ?_
    rw [← List.append_assoc, ← List.append_assoc]
    exact hstep.append_right _

/-- C6: every emitted `ReadyBatch` carries a permutation of the queued
transactions drained at that flush (size-triggered push, force flush,
timeout flush), the queue being left empty; and along any operation trace
with an open channel, the multiset of all emitted transactions plus the
remaining queue equals the initial queue plus everything pushed — so each
batch is exactly the multiset pushed since the previous flush, in
post-shuffle order. -/
theorem c6_batch_is_permutation (q : QueueState) (now : Nat) (rand : Nat → Nat)
    (newId : String) :
    (∀ tx b, (queuePush q tx now rand newId).emitted = some b →
      List.Perm b.transactions (q.pending.map Prod.fst ++ [tx]) ∧
        (queuePush q tx now rand newId).state.pending = []) ∧
    (∀ b, (force_flush q rand newId).emitted = some b →
      List.Perm b.transactions (q.pending.map Prod.fst) ∧
        (force_flush q rand newId).state.pending = []) ∧
    (∀ b, (timeout_tick q now rand newId).2 = some b →
      List.Perm b.transactions (q.pending.map Prod.fst) ∧
        (timeout_tick q now rand newId).1.pending = []) ∧
    (∀ ops : List QOp, q.channelOpen = true →
      List.Perm
        (emittedTxs (runOps rand q ops).2 ++
          ((runOps rand q ops).1.pending.map Prod.fst))
        (q.pending.map Prod.fst ++ pushedTxs ops)) := by
  refine ⟨?_, ?_, ?_, ?_⟩
  · intro tx b hb
    by_cases hsz : q.max_size ≤ q.pending.length + 1
    · simp only [queuePush, List.length_append, List.length_cons, List.length_nil,
        Nat.zero_add, hsz, if_true, List.map_append, List.map_cons, List.map_nil] at hb ⊢
      cases hcho : q.channelOpen with
      | false => rw [hcho] at hb; simp at hb
      | true =>
        rw [hcho] at hb
        simp only [if_true, Option.some.injEq] at hb
        subst hb
        exact ⟨by simpa using fisherYates_perm rand (List.map Prod.fst q.pending ++ [tx]),
          by trivial⟩
    · simp [queuePush, hsz] at hb
  · intro b hb
    by_cases h1 : q.pending = []
    · simp [force_flush, h1] at hb
    · by_cases h2 : q.pending.length < q.min_batch_size
      · simp [force_flush, h1, h2] at hb
      · cases hcho : q.channelOpen with
        | false => simp [force_flush, h1, h2, hcho] at hb
        | true =>
          simp only [force_flush, h1, h2, if_false, ite_false, hcho, if_true, ite_true,
            Option.some.injEq] at hb
          subst hb
          refine ⟨fisherYates_perm rand (q.pending.map Prod.fst), ?_⟩
          simp [force_flush, h1, h2, hcho]
  · intro b hb
    cases hp : q.pending with
    | nil => simp [timeout_tick, hp] at hb
    | cons hd rest =>
      obtain ⟨tx₀, t₀⟩ := hd
      rw [timeout_tick_cons q now rand newId tx₀ t₀ rest hp] at hb ⊢
      by_cases h : (q.timeout ≤ now - t₀ ∧ q.min_batch_size ≤ rest.length + 1) ∨
          q.max_wait ≤ now - t₀
      · simp only [h, if_true] at hb ⊢
        cases hcho : q.channelOpen with
        | false => rw [hcho] at hb; simp at hb
        | true =>
          rw [hcho] at hb
          simp only [if_true, Option.some.injEq] at hb
          subst hb
          refine ⟨?_, by trivial⟩
          simpa [hp] using fisherYates_perm rand (tx₀ :: rest.map Prod.fst)
      · simp [h] at hb
  · intro ops hch
    exact runOps_conservation rand ops q hch

/-- Witness for C6: pushing one deposit into an empty queue with
`max_size = 1` (open channel) emits exactly that deposit; instantiates the
trace-conservation conjunct at that concrete trace. -/
theorem c6_batch_is_permutation_witness :
    List.Perm
      (emittedTxs (runOps (fun _ => 0)
          { pending := [], max_size := 1, timeout := 60, min_batch_size := 1,
            max_wait := 300, channelOpen := true }
          [QOp.push (PendingTx.Deposit 1000 1 [0, 0, 0, 0] [0, 0, 0, 0]) 0 ("b6")]).2 ++
        ((runOps (fun _ => 0)
          { pending := [], max_size := 1, timeout := 60, min_batch_size := 1,
            max_wait := 300, channelOpen := true }
          [QOp.push (PendingTx.Deposit 1000 1 [0, 0, 0, 0] [0, 0, 0, 0]) 0 ("b6")]).1.pending.map
          Prod.fst))
      (([] : List (PendingTx × Nat)).map Prod.fst ++
        pushedTxs [QOp.push (PendingTx.Deposit 1000 1 [0, 0, 0, 0] [0, 0, 0, 0]) 0 ("b6")]) :=
  (c6_batch_is_permutation
    { pending := [], max_size := 1, timeout := 60, min_batch_size := 1,
      max_wait := 300, channelOpen := true }
    0 (fun _ => 0) ("b6")).2.2.2
    [QOp.push (PendingTx.Deposit 1000 1 [0, 0, 0, 0] [0, 0, 0, 0]) 0 ("b6")] rfl

/-! ## Claim C1 -/

/-- The monotone happy path of the batch status machine. -/
def happyPath : List BatchStatus :=
  [BatchStatus.Pending, BatchStatus.Proving, BatchStatus.Submitting, BatchStatus.Finalized]

/-- A written-status sequence allowed by the claim: the full monotone path,
or a non-empty proper prefix of it (all non-terminal) closed by `Failed`.
No back-transition and no overwrite of a terminal status occurs in either
shape. -/
def traceOk (t : List BatchStatus) : Prop :=
  t = happyPath ∨ ∃ k, 1 ≤ k ∧ k ≤ 3 ∧ t = happyPath.take k ++ [BatchStatus.Failed]

theorem update_status_of_lookup (m : List (String × BatchRecord)) (id : String)
    (status : BatchStatus) (extra : StatusUpdate) (r : BatchRecord)
    (hl : lookupA id m = some r) :
    update_status m id status extra = Except.ok (setAssoc id (applyUpdate r status extra) m) := by
  unfold update_status
  rw [hl]

/-- C1: one iteration of the prover loop always leaves the batch record in
a terminal state: `Finalized` with `batch_id_onchain` and `tx_hash`
attached on success, `Failed` with the rendered error string in the
`error` field on any pipeline error; and the sequence of statuses written
for the batch is the full `Pending → Proving → Submitting → Finalized`
path or a non-terminal prefix of it closed by `Failed`. -/
theorem c1_prover_terminal_state (env : ProverEnv) (now : Nat) (ready : ReadyBatch)
    (batches : List (String × BatchRecord)) (notes : List (String × NoteRecord)) :
    ∃ r : BatchRecord,
      lookupA ready.batch_id (run_step env now ready batches notes).1 = some r ∧
      ((r.status = BatchStatus.Finalized ∧ r.batch_id_onchain.isSome = true ∧
          r.tx_hash.isSome = true) ∨
        (r.status = BatchStatus.Failed ∧
          ∃ e : ProverErr, r.error = some e.render ∧
            (process_batch env now ready.batch_id ready.transactions batches notes).2.2.2 =
              Except.error e)) ∧
      traceOk (run_step env now ready batches notes).2.2 := by
  obtain ⟨id, txs⟩ := ready
  simp only at *
  rcases hv : env.validation with e | u
  · -- validation failed: Pending, then Failed
    have hproc : process_batch env now id txs batches notes =
        (setAssoc id (BatchRecord.new id txs.length now) batches, notes,
          [BatchStatus.Pending], Except.error (ProverErr.Validation e)) := by
      simp [process_batch, save_batch, hv]
    have hup := update_status_of_lookup
      (setAssoc id (BatchRecord.new id txs.length now) batches) id BatchStatus.Failed
      { error := some (ProverErr.Validation e).render } (BatchRecord.new id txs.length now)
      (lookupA_setAssoc_self _ _ _)
    have hrun : run_step env now ⟨id, txs⟩ batches notes =
        (setAssoc id
          (applyUpdate (BatchRecord.new id txs.length now) BatchStatus.Failed
            { error := some (ProverErr.Validation e).render })
          (setAssoc id (BatchRecord.new id txs.length now) batches), notes,
          [BatchStatus.Pending, BatchStatus.Failed]) := by
      simp only [run_step, hproc, hup]; rfl
    rw [hrun]
    refine ⟨_, lookupA_setAssoc_self _ _ _, Or.inr ⟨rfl, ProverErr.Validation e, rfl, ?_⟩,
      Or.inr ⟨1, by omega, by omega, rfl⟩⟩
    rw [hproc]
  · rcases hpv : env.proving with e | proven
    · -- proving failed: Pending, Proving, Failed
      have hup1 := update_status_of_lookup
        (setAssoc id (BatchRecord.new id txs.length now) batches) id BatchStatus.Proving
        {} (BatchRecord.new id txs.length now) (lookupA_setAssoc_self _ _ _)
      have hproc : process_batch env now id txs batches notes =
          (setAssoc id
            (applyUpdate (BatchRecord.new id txs.length now) BatchStatus.Proving {})
            (setAssoc id (BatchRecord.new id txs.length now) batches), notes,
            [BatchStatus.Pending, BatchStatus.Proving],
            Except.error (ProverErr.Proving e)) := by
        simp [process_batch, save_batch, hv, hup1, hpv]
      have hup2 := update_status_of_lookup _ id BatchStatus.Failed
        { error := some (ProverErr.Proving e).render }
        (applyUpdate (BatchRecord.new id txs.length now) BatchStatus.Proving {})
        (lookupA_setAssoc_self _ _
          (setAssoc id (BatchRecord.new id txs.length now) batches))
      have hrun : run_step env now ⟨id, txs⟩ batches notes =
          (setAssoc id
            (applyUpdate
              (applyUpdate (BatchRecord.new id txs.length now) BatchStatus.Proving {})
              BatchStatus.Failed { error := some (ProverErr.Proving e).render })
            (setAssoc id
              (applyUpdate (BatchRecord.new id txs.length now) BatchStatus.Proving {})
              (setAssoc id (BatchRecord.new id txs.length now) batches)), notes,
            [BatchStatus.Pending, BatchStatus.Proving, BatchStatus.Failed]) := by
        simp only [run_step, hproc, hup2]; rfl
      rw [hrun]
      refine ⟨_, lookupA_setAssoc_self _ _ _, Or.inr ⟨rfl, ProverErr.Proving e, rfl, ?_⟩,
        Or.inr ⟨2, by omega, by omega, rfl⟩⟩
      rw [hproc]
    · rcases hh : env.hashWords proven with e | words
      · -- hashing failed: Pending, Proving, Failed with a Proving error
        have hup1 := update_status_of_lookup
          (setAssoc id (BatchRecord.new id txs.length now) batches) id BatchStatus.Proving
          {} (BatchRecord.new id txs.length now) (lookupA_setAssoc_self _ _ _)
        have hproc : process_batch env now id txs batches notes =
            (setAssoc id
              (applyUpdate (BatchRecord.new id txs.length now) BatchStatus.Proving {})
              (setAssoc id (BatchRecord.new id txs.length now) batches), notes,
              [BatchStatus.Pending, BatchStatus.Proving],
              Except.error (ProverErr.Proving (("hash error: ") ++ e))) := by
          simp [process_batch, save_batch, hv, hup1, hpv, hh]
        have hup2 := update_status_of_lookup _ id BatchStatus.Failed
          { error := some (ProverErr.Proving (("hash error: ") ++ e)).render }
          (applyUpdate (BatchRecord.new id txs.length now) BatchStatus.Proving {})
          (lookupA_setAssoc_self _ _
            (setAssoc id (BatchRecord.new id txs.length now) batches))
        have hrun : run_step env now ⟨id, txs⟩ batches notes =
            (setAssoc id
              (applyUpdate
                (applyUpdate (BatchRecord.new id txs.length now) BatchStatus.Proving {})
                BatchStatus.Failed
                { error := some (ProverErr.Proving (("hash error: ") ++ e)).render })
              (setAssoc id
                (applyUpdate (BatchRecord.new id txs.length now) BatchStatus.Proving {})
                (setAssoc id (BatchRecord.new id txs.length now) batches)), notes,
              [BatchStatus.Pending, BatchStatus.Proving, BatchStatus.Failed]) := by
          simp only [run_step, hproc, hup2]; rfl
        rw [hrun]
        refine ⟨_, lookupA_setAssoc_self _ _ _,
          Or.inr ⟨rfl, ProverErr.Proving (("hash error: ") ++ e), rfl, ?_⟩,
          Or.inr ⟨2, by omega, by omega, rfl⟩⟩
        rw [hproc]
      · rcases hr : env.relay with e | outcome
        · -- relay failed: Pending, Proving, Submitting, Failed
          have hup1 := update_status_of_lookup
            (setAssoc id (BatchRecord.new id txs.length now) batches) id BatchStatus.Proving
            {} (BatchRecord.new id txs.length now) (lookupA_setAssoc_self _ _ _)
          have hup2 := update_status_of_lookup _ id BatchStatus.Submitting
            { proof_hash := some (("0x") ++ String.join (words.map (hexPad 8))) }
            (applyUpdate (BatchRecord.new id txs.length now) BatchStatus.Proving {})
            (lookupA_setAssoc_self _ _
              (setAssoc id (BatchRecord.new id txs.length now) batches))
          have hproc : process_batch env now id txs batches notes =
              (setAssoc id
                (applyUpdate
                  (applyUpdate (BatchRecord.new id txs.length now) BatchStatus.Proving {})
                  BatchStatus.Submitting
                  { proof_hash := some (("0x") ++ String.join (words.map (hexPad 8))) })
                (setAssoc id
                  (applyUpdate (BatchRecord.new id txs.length now) BatchStatus.Proving {})
                  (setAssoc id (BatchRecord.new id txs.length now) batches)), notes,
                [BatchStatus.Pending, BatchStatus.Proving, BatchStatus.Submitting],
                Except.error (ProverErr.Relayer e)) := by
            simp [process_batch, save_batch, hv, hup1, hpv, hh, hup2, hr]
          have hup3 := update_status_of_lookup
            (setAssoc id
              (applyUpdate
                (applyUpdate (BatchRecord.new id txs.length now) BatchStatus.Proving {})
                BatchStatus.Submitting
                { proof_hash := some (("0x") ++ String.join (words.map (hexPad 8))) })
              (setAssoc id
                (applyUpdate (BatchRecord.new id txs.length now) BatchStatus.Proving {})
                (setAssoc id (BatchRecord.new id txs.length now) batches)))
            id BatchStatus.Failed
            { error := some (ProverErr.Relayer e).render }
            (applyUpdate
              (applyUpdate (BatchRecord.new id txs.length now) BatchStatus.Proving {})
              BatchStatus.Submitting
              { proof_hash := some (("0x") ++ String.join (words.map (hexPad 8))) })
            (lookupA_setAssoc_self _ _ _)
          have hrun : run_step env now ⟨id, txs⟩ batches notes =
              (setAssoc id
                (applyUpdate
                  (applyUpdate
                    (applyUpdate (BatchRecord.new id txs.length now) BatchStatus.Proving {})
                    BatchStatus.Submitting
                    { proof_hash := some (("0x") ++ String.join (words.map (hexPad 8))) })
                  BatchStatus.Failed { error := some (ProverErr.Relayer e).render })
                (setAssoc id
                  (applyUpdate
                    (applyUpdate (BatchRecord.new id txs.length now) BatchStatus.Proving {})
                    BatchStatus.Submitting
                    { proof_hash := some (("0x") ++ String.join (words.map (hexPad 8))) })
                  (setAssoc id
                    (applyUpdate (BatchRecord.new id txs.length now) BatchStatus.Proving {})
                    (setAssoc id (BatchRecord.new id txs.length now) batches))), notes,
                [BatchStatus.Pending, BatchStatus.Proving, BatchStatus.Submitting,
                  BatchStatus.Failed]) := by
            simp only [run_step, hproc, hup3]; rfl
          rw [hrun]
          refine ⟨_, lookupA_setAssoc_self _ _ _,
            Or.inr ⟨rfl, ProverErr.Relayer e, rfl, ?_⟩,
            Or.inr ⟨3, by omega, by omega, rfl⟩⟩
          rw [hproc]
        · -- full success: Pending, Proving, Submitting, Finalized
          have hup1 := update_status_of_lookup
            (setAssoc id (BatchRecord.new id txs.length now) batches) id BatchStatus.Proving
            {} (BatchRecord.new id txs.length now) (lookupA_setAssoc_self _ _ _)
          have hup2 := update_status_of_lookup _ id BatchStatus.Submitting
            { proof_hash := some (("0x") ++ String.join (words.map (hexPad 8))) }
            (applyUpdate (BatchRecord.new id txs.length now) BatchStatus.Proving {})
            (lookupA_setAssoc_self _ _
              (setAssoc id (BatchRecord.new id txs.length now) batches))
          have hup3 := update_status_of_lookup
            (setAssoc id
              (applyUpdate
                (applyUpdate (BatchRecord.new id txs.length now) BatchStatus.Proving {})
                BatchStatus.Submitting
                { proof_hash := some (("0x") ++ String.join (words.map (hexPad 8))) })
              (setAssoc id
                (applyUpdate (BatchRecord.new id txs.length now) BatchStatus.Proving {})
                (setAssoc id (BatchRecord.new id txs.length now) batches)))
            id BatchStatus.Finalized
            { batch_id_onchain := some outcome.batch_id, tx_hash := some outcome.proof_hash }
            (applyUpdate
              (applyUpdate (BatchRecord.new id txs.length now) BatchStatus.Proving {})
              BatchStatus.Submitting
              { proof_hash := some (("0x") ++ String.join (words.map (hexPad 8))) })
            (lookupA_setAssoc_self _ _ _)
          have hproc : process_batch env now id txs batches notes =
              (setAssoc id
                (applyUpdate
                  (applyUpdate
                    (applyUpdate (BatchRecord.new id txs.length now) BatchStatus.Proving {})
                    BatchStatus.Submitting
                    { proof_hash := some (("0x") ++ String.join (words.map (hexPad 8))) })
                  BatchStatus.Finalized
                  { batch_id_onchain := some outcome.batch_id,
                    tx_hash := some outcome.proof_hash })
                (setAssoc id
                  (applyUpdate
                    (applyUpdate (BatchRecord.new id txs.length now) BatchStatus.Proving {})
                    BatchStatus.Submitting
                    { proof_hash := some (("0x") ++ String.join (words.map (hexPad 8))) })
                  (setAssoc id
                    (applyUpdate (BatchRecord.new id txs.length now) BatchStatus.Proving {})
                    (setAssoc id (BatchRecord.new id txs.length now) batches))),
                saveDepositNotes (extract_deposit_notes txs)
                  (extract_deposit_digests (txs.map tx_kind) proven.new_commitments)
                  id now notes,
                [BatchStatus.Pending, BatchStatus.Proving, BatchStatus.Submitting,
                  BatchStatus.Finalized],
                Except.ok ()) := by
            simp [process_batch, save_batch, hv, hup1, hpv, hh, hup2, hr, hup3]
          have hrun : run_step env now ⟨id, txs⟩ batches notes =
              ((process_batch env now id txs batches notes).1,
                (process_batch env now id txs batches notes).2.1,
                (process_batch env now id txs batches notes).2.2.1) := by
            rw [run_step]
            rw [hproc]
          rw [hrun, hproc]
          refine ⟨_, lookupA_setAssoc_self _ _ _, Or.inl ⟨?_, ?_, ?_⟩, Or.inl rfl⟩
          · rfl
          · rfl
          · rfl

/-! ## Claim C10 -/

/-- C10: the prover derives each deposit's note-store commitment key with
the blinding fixed to `[0,0,0,0]`, so two deposits sharing recipient
public key, asset id and amount — regardless of viewing keys or batches —
produce the same key, and saving the later `NoteRecord` overwrites the
earlier one, both through `save_note` directly and through the prover's
note-writing loop for two singleton batches. -/
theorem c10_commitment_key_collision (amount asset : Nat) (pk vk₁ vk₂ : List Nat)
    (m : List (String × NoteRecord)) (r₁ r₂ : NoteRecord) :
    ∃ key : String,
      (extract_deposit_notes [PendingTx.Deposit amount asset pk vk₁]).map
          DepositNoteInfo.commitment_key = [key] ∧
      (extract_deposit_notes [PendingTx.Deposit amount asset pk vk₂]).map
          DepositNoteInfo.commitment_key = [key] ∧
      (extract_deposit_notes [PendingTx.Deposit amount asset pk vk₁]).map
          DepositNoteInfo.blinding = [[0, 0, 0, 0]] ∧
      lookupA key (save_note (save_note m key r₁) key r₂) = some r₂ ∧
      (∀ (digests₁ digests₂ : List (List Nat)) (bid₁ bid₂ : String) (ta tb : Nat),
        lookupA key
          (saveDepositNotes (extract_deposit_notes [PendingTx.Deposit amount asset pk vk₂])
            digests₂ bid₂ tb
            (saveDepositNotes (extract_deposit_notes [PendingTx.Deposit amount asset pk vk₁])
              digests₁ bid₁ ta m)) =
          some { commitment := key, merkle_path := { siblings := [], index := 0 },
                 merkle_root := List.replicate 8 0, batch_id := bid₂, created_at := tb,
                 commitment_digest := digests₂[0]?, note_index_in_batch := 0 }) := by
  refine ⟨DepositNoteInfo.commitment_key
    { owner_pubkey := pk, asset_id := asset, amount := amount, blinding := [0, 0, 0, 0] },
    ?_, ?_, ?_, ?_, ?_⟩
  · simp [extract_deposit_notes]
  · simp [extract_deposit_notes]
  · simp [extract_deposit_notes]
  · exact lookupA_setAssoc_self _ _ _
  · intro digests₁ digests₂ bid₁ bid₂ ta tb
    simp only [extract_deposit_notes, List.foldr_cons, List.foldr_nil, saveDepositNotes,
      List.enum, List.enumFrom, List.foldl_cons, List.foldl_nil, save_note]
    exact lookupA_setAssoc_self _ _ _

/-! ## Claim C8 -/

/-- C8 (amended): whenever the submit pipeline reaches and passes envelope
resolution — an ECIES envelope that decrypts, or an accepted plaintext —
the timing pad runs and the modelled wall-clock time from the start of
envelope resolution to the response is at least 5 ms, whatever the later
steps (duplicate, validation failure, push) do.  A submission rejected
*during* envelope resolution, however, returns without the pad: its
response is exactly the resolution error. -/
theorem c8_timing_pad (cfg : Config) (oracle : CryptoOracle) (rand : Nat → Nat)
    (newId : String) (costs : SubmitCosts) (apiKey : Option String) (clientIp : String)
    (body : SubmitBody) (now : Nat) (store : StoreState) (queue : QueueState) :
    ((submit cfg oracle rand newId costs apiKey clientIp body now store queue).padApplied =
        true →
      ∃ t, (submit cfg oracle rand newId costs apiKey clientIp body now store
          queue).envElapsed = some t ∧ MIN_PROCESSING_MICROS ≤ t) ∧
    (∀ t, (submit cfg oracle rand newId costs apiKey clientIp body now store
        queue).envElapsed = some t →
      (submit cfg oracle rand newId costs apiKey clientIp body now store
        queue).padApplied = false →
      ∃ e, (submit cfg oracle rand newId costs apiKey clientIp body now store
          queue).response = Except.error e ∧
        resolve_envelope cfg oracle body = Except.error e) := by
  have hpad : MIN_PROCESSING_MICROS ≤ costs.resolve +
      (if costs.resolve < MIN_PROCESSING_MICROS then
        MIN_PROCESSING_MICROS - costs.resolve else 0) + costs.post := by
    split_ifs <;> omega
  cases apiKey with
  | none =>
    exact ⟨fun h => by simp [submit] at h, fun t ht => by simp [submit] at ht⟩
  | some key =>
    cases hk : is_api_key_valid cfg key with
    | false =>
      exact ⟨fun h => by simp [submit, hk] at h, fun t ht => by simp [submit, hk] at ht⟩
    | true =>
      cases hrl : (check_rate store.rate_limits (("key:") ++ key)
          cfg.rate_limit_per_min 60 now).1 with
      | false =>
        exact ⟨fun h => by simp [submit, hk, hrl] at h,
          fun t ht => by simp [submit, hk, hrl] at ht⟩
      | true =>
        cases hrl2 : (check_rate (check_rate store.rate_limits (("key:") ++ key)
            cfg.rate_limit_per_min 60 now).2 (("ip:") ++ clientIp)
            (cfg.rate_limit_per_min * 3) 60 now).1 with
        | false =>
          exact ⟨fun h => by simp [submit, hk, hrl, hrl2] at h,
            fun t ht => by simp [submit, hk, hrl, hrl2] at ht⟩
        | true =>
          by_cases hcap : MAX_PENDING_TXS ≤ queue.pending.length
          · exact ⟨fun h => by simp [submit, hk, hrl, hrl2, hcap] at h,
              fun t ht => by simp [submit, hk, hrl, hrl2, hcap] at ht⟩
          · rcases hres : resolve_envelope cfg oracle body with e | res
            · refine ⟨fun h => by simp [submit, hk, hrl, hrl2, hcap, hres] at h,
                fun t ht hfalse => ⟨e, ?_, rfl⟩⟩
              simp [submit, hk, hrl, hrl2, hcap, hres]
            · cases hcas : (check_and_set store.idempotency res.idem_key
                  ("pending") now).1 with
              | some cached =>
                refine ⟨fun _ => ⟨costs.resolve +
                  (if costs.resolve < MIN_PROCESSING_MICROS then
                    MIN_PROCESSING_MICROS - costs.resolve else 0) + costs.post,
                  ?_, hpad⟩, fun t ht hfalse => ?_⟩
                · simp [submit, hk, hrl, hrl2, hcap, hres, hcas]
                · simp [submit, hk, hrl, hrl2, hcap, hres, hcas] at hfalse
              | none =>
                rcases hval : validate_and_convert res.req with e | tx
                · refine ⟨fun _ => ⟨costs.resolve +
                    (if costs.resolve < MIN_PROCESSING_MICROS then
                      MIN_PROCESSING_MICROS - costs.resolve else 0) + costs.post,
                    ?_, hpad⟩, fun t ht hfalse => ?_⟩
                  · simp [submit, hk, hrl, hrl2, hcap, hres, hcas, hval]
                  · simp [submit, hk, hrl, hrl2, hcap, hres, hcas, hval] at hfalse
                · refine ⟨fun _ => ⟨costs.resolve +
                    (if costs.resolve < MIN_PROCESSING_MICROS then
                      MIN_PROCESSING_MICROS - costs.resolve else 0) + costs.post,
                    ?_, hpad⟩, fun t ht hfalse => ?_⟩
                  · simp [submit, hk, hrl, hrl2, hcap, hres, hcas, hval]
                  · simp [submit, hk, hrl, hrl2, hcap, hres, hcas, hval] at hfalse

/-- Witness for C8's amended theorem: an accepted plaintext deposit with
zero modelled costs is padded to exactly the 5 ms floor. -/
theorem c8_timing_pad_witness :
    ∃ t, (submit
        { api_keys := [("k1")], rate_limit_per_min := 30,
          legacy_plaintext_allowed := true,
          relayer_private_key := some (List.replicate 32 0) }
        (fun _ _ => Except.error (AppError.Internal (""))) (fun _ => 0) ("b8")
        { resolve := 0, post := 0 } (some ("k1")) ("203.0.113.7")
        (SubmitBody.Plaintext (SubmitRequest.Deposit 50000 0 [1, 2, 3, 4] [5, 6, 7, 8])) 0
        StoreState.empty qOneTx).envElapsed = some t ∧ MIN_PROCESSING_MICROS ≤ t :=
  (c8_timing_pad
    { api_keys := [("k1")], rate_limit_per_min := 30, legacy_plaintext_allowed := true,
      relayer_private_key := some (List.replicate 32 0) }
    (fun _ _ => Except.error (AppError.Internal (""))) (fun _ => 0) ("b8")
    { resolve := 0, post := 0 } (some ("k1")) ("203.0.113.7")
    (SubmitBody.Plaintext (SubmitRequest.Deposit 50000 0 [1, 2, 3, 4] [5, 6, 7, 8])) 0
    StoreState.empty qOneTx).1 (by decide)

/-- Counterexample for C8 as stated: an encrypted submission whose envelope
is rejected during resolution (unsupported ECIES version 2) returns with no
pad; with zero modelled resolution cost, the time from the start of
envelope resolution to the 400 response is 0, far below the 5 ms floor the
claim asserts for every submission. -/
theorem c8_timing_pad_counterexample :
    (submit
        { api_keys := [("k1")], rate_limit_per_min := 30,
          legacy_plaintext_allowed := true,
          relayer_private_key := some (List.replicate 32 0) }
        (fun _ _ => Except.error (AppError.Internal (""))) (fun _ => 0) ("b8")
        { resolve := 0, post := 0 } (some ("k1")) ("203.0.113.7")
        (SubmitBody.Encrypted
          { ephemeral_pubkey := (""), ciphertext := (""), nonce := (""), version := 2 }) 0
        StoreState.empty qOneTx).envElapsed = some 0 ∧
    (submit
        { api_keys := [("k1")], rate_limit_per_min := 30,
          legacy_plaintext_allowed := true,
          relayer_private_key := some (List.replicate 32 0) }
        (fun _ _ => Except.error (AppError.Internal (""))) (fun _ => 0) ("b8")
        { resolve := 0, post := 0 } (some ("k1")) ("203.0.113.7")
        (SubmitBody.Encrypted
          { ephemeral_pubkey := (""), ciphertext := (""), nonce := (""), version := 2 }) 0
        StoreState.empty qOneTx).response =
      Except.error (AppError.BadRequest ("unsupported ECIES version: 2")) ∧
    ¬ (MIN_PROCESSING_MICROS ≤ 0) := by
  refine ⟨by decide, by decide, by decide⟩

/-! ## Claims C3 and C9: the duplicate-submission scenario -/

/-- Configuration used by the duplicate-submission scenario: one API key,
the default rate limit, plaintext allowed. -/
def cfgP : Config :=
  { api_keys := [("k1")], rate_limit_per_min := 30, legacy_plaintext_allowed := true,
    relayer_private_key := none }

/-- Queue construction used by the duplicate-submission scenario: an empty
queue with the given configuration. -/
def mkQueue (M T mb W : Nat) (ch : Bool) : QueueState :=
  { pending := [], max_size := M, timeout := T, min_batch_size := mb, max_wait := W,
    channelOpen := ch }

set_option maxHeartbeats 1600000 in
/-- Core of the duplicate-submission scenario: two byte-identical plaintext
submissions against a fresh store, the second within the one-hour token
TTL.  The first call records the idempotency token with the placeholder
value `"pending"`; the second returns HTTP 200 `"duplicate"` with the
cached value, leaves the queue untouched and emits nothing; and when the
payload fails validation the first call returns exactly the validation
error without enqueueing. -/
theorem submit_twice_core (oracle : CryptoOracle) (rand₁ rand₂ : Nat → Nat)
    (id₁ id₂ : String) (c₁ c₂ : SubmitCosts) (r : SubmitRequest) (t₁ t₂ : Nat)
    (M T mb W : Nat) (ch : Bool) (_h12 : t₁ ≤ t₂) (hTTL : t₂ - t₁ < 3600) :
    let q₀ : QueueState := mkQueue M T mb W ch
    let o₁ := submit cfgP oracle rand₁ id₁ c₁ (some ("k1")) ("203.0.113.7")
      (SubmitBody.Plaintext r) t₁ StoreState.empty q₀
    let o₂ := submit cfgP oracle rand₂ id₂ c₂ (some ("k1")) ("203.0.113.7")
      (SubmitBody.Plaintext r) t₂ o₁.store o₁.queue
    o₁.store.idempotency = [(r.idemKey, (("pending"), t₁))] ∧
    o₂.response = Except.ok
      { http := 200, status := ("duplicate"), cached_result := some ("pending"),
        batch_id := none, queue_position := none, idempotency_key := r.idemKey } ∧
    o₂.queue = o₁.queue ∧
    o₂.emitted = none ∧
    o₂.store.idempotency = o₁.store.idempotency ∧
    (∀ e, validate_and_convert r = Except.error e →
      o₁.response = Except.error e ∧ o₁.queue = q₀ ∧ o₁.emitted = none) := by
  intro q₀ o₁ o₂
  rcases hval : validate_and_convert r with e | tx
  · by_cases h60 : 60 ≤ t₂ - t₁
    · refine ⟨?_, ?_, ?_, ?_, ?_, ?_⟩
      · simp [o₁, q₀, submit, resolve_envelope, check_rate, check_and_set, lookupA, setAssoc,
          queuePush, cfgP, mkQueue, is_api_key_valid, MAX_PENDING_TXS, IDEMPOTENCY_TTL_SECS,
          StoreState.empty, hval, hTTL, h60]
      · simp [o₂, o₁, q₀, submit, resolve_envelope, check_rate, check_and_set, lookupA,
          setAssoc, queuePush, cfgP, mkQueue, is_api_key_valid, MAX_PENDING_TXS,
          IDEMPOTENCY_TTL_SECS, StoreState.empty, hval, hTTL, h60]
      · simp [o₂, o₁, q₀, submit, resolve_envelope, check_rate, check_and_set, lookupA,
          setAssoc, queuePush, cfgP, mkQueue, is_api_key_valid, MAX_PENDING_TXS,
          IDEMPOTENCY_TTL_SECS, StoreState.empty, hval, hTTL, h60]
      · simp [o₂, o₁, q₀, submit, resolve_envelope, check_rate, check_and_set, lookupA,
          setAssoc, queuePush, cfgP, mkQueue, is_api_key_valid, MAX_PENDING_TXS,
          IDEMPOTENCY_TTL_SECS, StoreState.empty, hval, hTTL, h60]
      · simp [o₂, o₁, q₀, submit, resolve_envelope, check_rate, check_and_set, lookupA,
          setAssoc, queuePush, cfgP, mkQueue, is_api_key_valid, MAX_PENDING_TXS,
          IDEMPOTENCY_TTL_SECS, StoreState.empty, hval, hTTL, h60]
      · intro e' he'
        obtain rfl := Except.error.inj he'
        refine ⟨?_, ?_, ?_⟩ <;>
          simp [o₁, q₀, submit, resolve_envelope, check_rate, check_and_set, lookupA,
            setAssoc, queuePush, cfgP, mkQueue, is_api_key_valid, MAX_PENDING_TXS,
            IDEMPOTENCY_TTL_SECS, StoreState.empty, hval, hTTL, h60]
    · refine ⟨?_, ?_, ?_, ?_, ?_, ?_⟩
      · simp [o₁, q₀, submit, resolve_envelope, check_rate, check_and_set, lookupA, setAssoc,
          queuePush, cfgP, mkQueue, is_api_key_valid, MAX_PENDING_TXS, IDEMPOTENCY_TTL_SECS,
          StoreState.empty, hval, hTTL, h60]
      · simp [o₂, o₁, q₀, submit, resolve_envelope, check_rate, check_and_set, lookupA,
          setAssoc, queuePush, cfgP, mkQueue, is_api_key_valid, MAX_PENDING_TXS,
          IDEMPOTENCY_TTL_SECS, StoreState.empty, hval, hTTL, h60]
      · simp [o₂, o₁, q₀, submit, resolve_envelope, check_rate, check_and_set, lookupA,
          setAssoc, queuePush, cfgP, mkQueue, is_api_key_valid, MAX_PENDING_TXS,
          IDEMPOTENCY_TTL_SECS, StoreState.empty, hval, hTTL, h60]
      · simp [o₂, o₁, q₀, submit, resolve_envelope, check_rate, check_and_set, lookupA,
          setAssoc, queuePush, cfgP, mkQueue, is_api_key_valid, MAX_PENDING_TXS,
          IDEMPOTENCY_TTL_SECS, StoreState.empty, hval, hTTL, h60]
      · simp [o₂, o₁, q₀, submit, resolve_envelope, check_rate, check_and_set, lookupA,
          setAssoc, queuePush, cfgP, mkQueue, is_api_key_valid, MAX_PENDING_TXS,
          IDEMPOTENCY_TTL_SECS, StoreState.empty, hval, hTTL, h60]
      · intro e' he'
        obtain rfl := Except.error.inj he'
        refine ⟨?_, ?_, ?_⟩ <;>
          simp [o₁, q₀, submit, resolve_envelope, check_rate, check_and_set, lookupA,
            setAssoc, queuePush, cfgP, mkQueue, is_api_key_valid, MAX_PENDING_TXS,
            IDEMPOTENCY_TTL_SECS, StoreState.empty, hval, hTTL, h60]
  · by_cases h60 : 60 ≤ t₂ - t₁ <;> by_cases hM : M ≤ 1 <;>
      refine ⟨?_, ?_, ?_, ?_, ?_, fun e' he' => Except.noConfusion he'⟩ <;>
      simp [o₂, o₁, q₀, submit, resolve_envelope, check_rate, check_and_set, lookupA,
        setAssoc, queuePush, cfgP, mkQueue, is_api_key_valid, MAX_PENDING_TXS,
        IDEMPOTENCY_TTL_SECS, StoreState.empty, hval, hTTL, h60, hM]

/-- Concrete payload used by the C3 witness: a whitelisted BTC deposit. -/
def rW : SubmitRequest := SubmitRequest.Deposit 50000 0 [1, 2, 3, 4] [5, 6, 7, 8]

/-- Concrete invalid payload used by the C9 witness: a zero-amount deposit. -/
def rBad : SubmitRequest := SubmitRequest.Deposit 0 0 [0, 0, 0, 0] [0, 0, 0, 0]

/-- Crypto oracle used by the scenario witnesses (never consulted on the
plaintext path). -/
def oracleW : CryptoOracle := fun _ _ => Except.error (AppError.Internal (""))

/-- C3: at the store level, `check_and_set` returns the previously stored
value exactly when a non-expired entry exists for the key, and otherwise
records `(result, now)` and returns `None`; at the route level, of two
byte-identical plaintext submissions (same idempotency key) the second,
arriving within the one-hour TTL, returns HTTP 200 with status
`"duplicate"` and the cached value, and enqueues nothing. -/
theorem c3_duplicate_submission (oracle : CryptoOracle) (rand₁ rand₂ : Nat → Nat)
    (id₁ id₂ : String) (c₁ c₂ : SubmitCosts) (r : SubmitRequest) (t₁ t₂ : Nat)
    (M T mb W : Nat) (ch : Bool) (h12 : t₁ ≤ t₂) (hTTL : t₂ - t₁ < 3600) :
    (∀ (m : List (String × (String × Nat))) (key result : String) (now : Nat),
      (∀ v, (check_and_set m key result now).1 = some v ↔
        ∃ c, lookupA key m = some (v, c) ∧ now - c < IDEMPOTENCY_TTL_SECS) ∧
      ((check_and_set m key result now).1 = none →
        (check_and_set m key result now).2 = setAssoc key (result, now) m)) ∧
    (let q₀ : QueueState := mkQueue M T mb W ch
     let o₁ := submit cfgP oracle rand₁ id₁ c₁ (some ("k1")) ("203.0.113.7")
       (SubmitBody.Plaintext r) t₁ StoreState.empty q₀
     let o₂ := submit cfgP oracle rand₂ id₂ c₂ (some ("k1")) ("203.0.113.7")
       (SubmitBody.Plaintext r) t₂ o₁.store o₁.queue
     o₂.response = Except.ok
       { http := 200, status := ("duplicate"), cached_result := some ("pending"),
         batch_id := none, queue_position := none, idempotency_key := r.idemKey } ∧
     o₂.queue = o₁.queue ∧ o₂.emitted = none) := by
  constructor
  · intro m key result now
    rcases hml : lookupA key m with _ | ⟨v₀, c₀⟩
    · refine ⟨fun v => ?_, fun _ => ?_⟩
      · simp [check_and_set, hml]
      · simp [check_and_set, hml]
    · by_cases hexp : now - c₀ < IDEMPOTENCY_TTL_SECS
      · refine ⟨fun v => ⟨fun hv => ?_, fun hc => ?_⟩, fun hnone => ?_⟩
        · simp [check_and_set, hml, hexp] at hv
          subst hv
          exact ⟨c₀, rfl, hexp⟩
        · obtain ⟨c, hc, hlt⟩ := hc
          obtain rfl : v₀ = v := by
            injection hc with h1
            exact congrArg Prod.fst h1
          simp [check_and_set, hml, hexp]
        · simp [check_and_set, hml, hexp] at hnone
      · refine ⟨fun v => ⟨fun hv => ?_, fun hc => ?_⟩, fun _ => ?_⟩
        · simp [check_and_set, hml, hexp] at hv
        · exfalso
          obtain ⟨c, hc, hlt⟩ := hc
          obtain rfl : c₀ = c := by
            injection hc with h1
            exact congrArg Prod.snd h1
          exact hexp hlt
        · simp [check_and_set, hml, hexp]
  · intro q₀ o₁ o₂
    have h := submit_twice_core oracle rand₁ rand₂ id₁ id₂ c₁ c₂ r t₁ t₂ M T mb W ch
      h12 hTTL
    exact ⟨h.2.1, h.2.2.1, h.2.2.2.1⟩

/-- Witness for C3: the concrete duplicate scenario — a whitelisted deposit
submitted at seconds `100` and `200` — returns the 200 `"duplicate"`
response on the second call. -/
theorem c3_duplicate_submission_witness :
    (submit cfgP oracleW (fun _ => 0) ("b3b") { resolve := 0, post := 0 } (some ("k1"))
        ("203.0.113.7") (SubmitBody.Plaintext rW) 200
        (submit cfgP oracleW (fun _ => 0) ("b3a") { resolve := 0, post := 0 }
          (some ("k1")) ("203.0.113.7") (SubmitBody.Plaintext rW) 100 StoreState.empty
          (mkQueue 16 60 3 300 true)).store
        (submit cfgP oracleW (fun _ => 0) ("b3a") { resolve := 0, post := 0 }
          (some ("k1")) ("203.0.113.7") (SubmitBody.Plaintext rW) 100 StoreState.empty
          (mkQueue 16 60 3 300 true)).queue).response =
      Except.ok
        { http := 200, status := ("duplicate"), cached_result := some ("pending"),
          batch_id := none, queue_position := none, idempotency_key := rW.idemKey } :=
  ((c3_duplicate_submission oracleW (fun _ => 0) (fun _ => 0) ("b3a") ("b3b")
    { resolve := 0, post := 0 } { resolve := 0, post := 0 } rW 100 200 16 60 3 300 true
    (by decide) (by decide)).2).1

/-- C9: in the submit pipeline the idempotency token is recorded before
validation runs, so a payload that fails validation still consumes its
key with the cached placeholder `"pending"`: the first attempt returns the
validation error — always a 400 `BadRequest` — without enqueueing, and the
byte-identical resubmission within the TTL returns HTTP 200 `"duplicate"`
instead of repeating the 400, and is never enqueued. -/
theorem c9_invalid_payload_consumes_token (oracle : CryptoOracle)
    (rand₁ rand₂ : Nat → Nat) (id₁ id₂ : String) (c₁ c₂ : SubmitCosts)
    (r : SubmitRequest) (e : AppError) (t₁ t₂ : Nat) (M T mb W : Nat) (ch : Bool)
    (hval : validate_and_convert r = Except.error e)
    (h12 : t₁ ≤ t₂) (hTTL : t₂ - t₁ < 3600) :
    let q₀ : QueueState := mkQueue M T mb W ch
    let o₁ := submit cfgP oracle rand₁ id₁ c₁ (some ("k1")) ("203.0.113.7")
      (SubmitBody.Plaintext r) t₁ StoreState.empty q₀
    let o₂ := submit cfgP oracle rand₂ id₂ c₂ (some ("k1")) ("203.0.113.7")
      (SubmitBody.Plaintext r) t₂ o₁.store o₁.queue
    o₁.response = Except.error e ∧
    e.isBad ∧
    AppError.statusCode e = 400 ∧
    o₁.queue = q₀ ∧
    o₁.emitted = none ∧
    o₁.store.idempotency = [(r.idemKey, (("pending"), t₁))] ∧
    o₂.response = Except.ok
      { http := 200, status := ("duplicate"), cached_result := some ("pending"),
        batch_id := none, queue_position := none, idempotency_key := r.idemKey } ∧
    o₂.queue = o₁.queue ∧
    o₂.emitted = none := by
  intro q₀ o₁ o₂
  have h := submit_twice_core oracle rand₁ rand₂ id₁ id₂ c₁ c₂ r t₁ t₂ M T mb W ch
    h12 hTTL
  have h6 := h.2.2.2.2.2 e hval
  have hbad := validate_and_convert_bad r e hval
  obtain ⟨msg, rfl⟩ := hbad
  exact ⟨h6.1, ⟨msg, rfl⟩, rfl, h6.2.1, h6.2.2, h.1, h.2.1, h.2.2.1, h.2.2.2.1⟩

/-- Witness for C9: the zero-amount deposit — first response is the
`amount must be > 0` BadRequest, the identical resubmission within the TTL
is answered with 200 `"duplicate"`. -/
theorem c9_invalid_payload_consumes_token_witness :
    (submit cfgP oracleW (fun _ => 0) ("b9a") { resolve := 0, post := 0 } (some ("k1"))
        ("203.0.113.7") (SubmitBody.Plaintext rBad) 100 StoreState.empty
        (mkQueue 16 60 3 300 true)).response =
      Except.error (AppError.BadRequest ("amount must be > 0")) ∧
    (submit cfgP oracleW (fun _ => 0) ("b9b") { resolve := 0, post := 0 } (some ("k1"))
        ("203.0.113.7") (SubmitBody.Plaintext rBad) 200
        (submit cfgP oracleW (fun _ => 0) ("b9a") { resolve := 0, post := 0 }
          (some ("k1")) ("203.0.113.7") (SubmitBody.Plaintext rBad) 100 StoreState.empty
          (mkQueue 16 60 3 300 true)).store
        (submit cfgP oracleW (fun _ => 0) ("b9a") { resolve := 0, post := 0 }
          (some ("k1")) ("203.0.113.7") (SubmitBody.Plaintext rBad) 100 StoreState.empty
          (mkQueue 16 60 3 300 true)).queue).response =
      Except.ok
        { http := 200, status := ("duplicate"), cached_result := some ("pending"),
          batch_id := none, queue_position := none, idempotency_key := rBad.idemKey } :=
  ⟨(c9_invalid_payload_consumes_token oracleW (fun _ => 0) (fun _ => 0) ("b9a") ("b9b")
      { resolve := 0, post := 0 } { resolve := 0, post := 0 } rBad
      (AppError.BadRequest ("amount must be > 0")) 100 200 16 60 3 300 true
      (by decide) (by decide) (by decide)).1,
    (c9_invalid_payload_consumes_token oracleW (fun _ => 0) (fun _ => 0) ("b9a") ("b9b")
      { resolve := 0, post := 0 } { resolve := 0, post := 0 } rBad
      (AppError.BadRequest ("amount must be > 0")) 100 200 16 60 3 300 true
      (by decide) (by decide) (by decide)).2.2.2.2.2.2.1⟩

end Obelysk
